import Mathlib

/-!
Gallery widget (`src/js/script.js`): list building, favourites store, load indicator.

A shallow embedding of the JavaScript source.  Conventions:

* JavaScript strings are Lean `String`s; `indexOf` and `slice` follow
  `String.prototype.indexOf` / `String.prototype.slice` (identifiers of this
  program are ASCII, so characters and UTF-16 code units coincide).
* A plain object used as a map (`someListId`, `funcs`) is an association list in
  property-creation order; assigning to an existing key keeps its position.  Its keys are
  element identifiers, which are neither array indices nor property names of
  `Object.prototype`, so `for ... in` runs in creation order and `k in o` is membership
  among the keys.
* Record ids coming from the data source are natural numbers or strings (`Val`).
* The DOM is represented by the parts the script touches.  A container (`parent`) has a
  class list, an info block of its own (`.extra-block`) and the `ul` lists appended to it;
  an `li` has the children its decorators append, among them an info block when the List
  asks for one.  In document order the info block of a container precedes its lists.
  `.preload` and `.msg-block` elements only occur as children of info blocks.
* A function that can raise returns the state reached together with the error raised.
* Asynchronous steps are separate functions: `addList` is the part that runs until the
  request is sent, `addListResponse` the continuation; `waitAllPromises` is what the
  callbacks do once `Promise.all` is settled, given how each signal ends.
-/

namespace Gallery

/-! ## String primitives -/

/-- Position of the first occurrence of `pat` in the remaining characters, counted from `i`;
`-1` when there is none. -/
def indexOfFrom (pat : List Char) : List Char → Nat → Int
  | [], i => if pat = [] then (i : Int) else -1
  | c :: cs, i => if pat.isPrefixOf (c :: cs) then (i : Int) else indexOfFrom pat cs (i + 1)

/-- `s.indexOf(pat)`. -/
def indexOf (s pat : String) : Int :=
  indexOfFrom pat.data s.data 0

/-- `s.slice(start)`: a negative `start` counts from the end of the string. -/
def slice (s : String) (start : Int) : String :=
  let len : Int := s.data.length
  let k : Int := if start < 0 then max (len + start) 0 else min start len
  ⟨s.data.drop k.toNat⟩

/-- A JavaScript value as it occurs in the records of the data source. -/
inductive Val where
  | undefined
  | num (n : Nat)
  | str (s : String)
  deriving DecidableEq, Repr

/-- String conversion of a value inside a template literal. -/
def Val.toStr : Val → String
  | .undefined => "undefined"
  | .num n => Nat.repr n
  | .str s => s

/-- A record of the data source: field name, value. -/
abbrev Record := List (String × Val)

/-- Property read `r[name]`; a missing property reads as `undefined`. -/
def Record.get (r : Record) (name : String) : Val :=
  match r.lookup name with
  | some v => v
  | none => .undefined

/-! ## Objects used as maps -/

/-- The object `someListId`: identifier, stored value. -/
abbrev Store := List (String × String)

/-- Assignment `o[k] = v`. -/
def Store.set : Store → String → String → Store
  | [], k, v => [(k, v)]
  | (k0, v0) :: rest, k, v =>
    if k0 = k then (k0, v) :: rest else (k0, v0) :: Store.set rest k v

/-- Statement `delete o[k]`. -/
def Store.delete (o : Store) (k : String) : Store :=
  o.filter (fun kv => kv.1 ≠ k)

/-- The keys enumerated by `for (let key in o)`. -/
def Store.keys (o : Store) : List String :=
  o.map Prod.fst

/-- Test `k in o`. -/
def Store.has (o : Store) (k : String) : Bool :=
  o.keys.contains k

/-! ## DOM fragments -/

/-- Result of a function that may raise: the state reached and the error, if any. -/
structure Res (σ : Type) where
  st : σ
  thrown : Option String := none

/-- `classList.add(c)`. -/
def classAdd (cls : List String) (c : String) : List String :=
  if cls.contains c then cls else cls ++ [c]

/-- `classList.remove(c)`. -/
def classRemove (cls : List String) (c : String) : List String :=
  cls.filter (fun x => x ≠ c)

/-- `classList.toggle(c)`. -/
def classToggle (cls : List String) (c : String) : List String :=
  if cls.contains c then classRemove cls c else cls ++ [c]

/-- A `div.msg-block` built by `createMsgBlock`. -/
structure MsgBlock where
  classes : List String
  img : String
  title : String
  description : String
  deriving DecidableEq, Repr

/-- A `div.extra-block`: its class list, the number of `.preload` children and its
`.msg-block` children in document order. -/
structure ExtraBlock where
  classes : List String
  preload : Nat
  msgs : List MsgBlock
  deriving DecidableEq, Repr

/-- An argument handed to a decorator: a value of the record, the record itself or the `li`. -/
inductive Arg where
  | val (v : Val)
  | record (r : Record)
  | handle
  deriving DecidableEq, Repr

/-- Child elements appended to an `li`. -/
inductive Node where
  | thumbnailPhoto (src : Arg)
  | star (active : Bool)
  | itemTitle (text : Arg) (dropdownBtns : Nat)
  | extraBlock (b : ExtraBlock)
  deriving DecidableEq, Repr

/-- A list element `li`. -/
structure Item where
  id : String
  classes : List String
  children : List Node
  deriving DecidableEq, Repr

/-- A list `ul`. -/
structure UList where
  classes : List String
  items : List Item
  deriving DecidableEq, Repr

/-- An element lists are appended to (a tab block or an `li`): its id, its class list, its first
`.extra-block` descendant and the `ul` children appended by `createList`, in document order. -/
structure Container where
  id : String
  classes : List String
  extraBlock : Option ExtraBlock
  lists : List UList
  deriving DecidableEq, Repr

/-- A completion signal returned by `imgLoaded`: the `li` whose thumbnail it waits for
(`none` when the `li` has no `.thumbnail-photo`). -/
structure Promise where
  owner : String
  img : Option Arg
  deriving DecidableEq, Repr

/-- How a completion signal ends. -/
inductive Outcome where
  | success
  | failure
  | pending
  deriving DecidableEq, Repr

/-! ## class List -/

/-- An entry of `List.funcs`. -/
structure FuncObj where
  func : List Arg → Item → Res Item
  attr : Option String

/-- The aggregate functions registered through `setPromise`. -/
inductive Aggregate where
  | waitAllPromises
  deriving DecidableEq, Repr

/-- The object `List.promise`. -/
structure PromiseCfg where
  arr : List Promise
  funcItem : Item → Promise
  funcPromise : Aggregate

/-- Instances of the class `List` of the script. -/
structure ListClass where
  listName : String
  id : String
  classList : List String
  classItem : List String
  waitAllLoad : Bool
  extraBlock : Bool
  funcs : List (String × FuncObj)
  promise : Option PromiseCfg
  funcsCount : Nat
  someListId : Store
  someListIdLength : Int

/-- The constructor `new List(name)`. -/
def ListClass.new (name : String) : ListClass :=
  { listName := "list__" ++ name ++ "s"
    id := name ++ "Id"
    classList := ["_hidden"]
    classItem := []
    waitAllLoad := false
    extraBlock := false
    funcs := []
    promise := none
    funcsCount := 0
    someListId := []
    someListIdLength := 0 }

/-- Method `addClassItem(...classNames)`. -/
def ListClass.addClassItem (self : ListClass) (classNames : List String) : ListClass :=
  { self with classItem := self.classItem ++ classNames }

/-- Method `addClassList(...classNames)`. -/
def ListClass.addClassList (self : ListClass) (classNames : List String) : ListClass :=
  { self with classList := self.classList ++ classNames }

/-- One round of the loop of `addFunction`: the descriptor is copied field by field
under the key `f<funcsCount>`. -/
def ListClass.addFunction1 (self : ListClass) (f : FuncObj) : ListClass :=
  let n := self.funcsCount + 1
  let key := "f" ++ Nat.repr n
  let copy : FuncObj := { func := f.func, attr := f.attr }
  { self with
    funcsCount := n
    funcs := if (self.funcs.map Prod.fst).contains key
      then self.funcs.map (fun kf => if kf.1 = key then (kf.1, copy) else kf)
      else self.funcs ++ [(key, copy)] }

/-- Method `addFunction(...funcObjs)`. -/
def ListClass.addFunction (self : ListClass) (fs : List FuncObj) : ListClass :=
  fs.foldl ListClass.addFunction1 self

/-- One round of the loop of `addSomeListId`:
`itID = itID.slice(itID.indexOf(this.id + 1)); this.someListId[arguments[i]] = itID;
this.someListIdLength++`.  Here `this.id + 1` is the string `this.id` followed by `"1"`. -/
def ListClass.addSomeListId1 (self : ListClass) (arg : String) : ListClass :=
  let itID := slice arg (indexOf arg (self.id ++ (Val.num 1).toStr))
  { self with
    someListId := self.someListId.set arg itID
    someListIdLength := self.someListIdLength + 1 }

/-- Method `addSomeListId(...ids)`. -/
def ListClass.addSomeListId (self : ListClass) (ids : List String) : ListClass :=
  ids.foldl ListClass.addSomeListId1 self

/-- Method `getSizeSomeListId()`. -/
def ListClass.getSizeSomeListId (self : ListClass) : Int :=
  self.someListIdLength

/-- One round of the loop of `removeSomeListId`. -/
def ListClass.removeSomeListId1 (self : ListClass) (arg : String) : ListClass :=
  { self with
    someListId := self.someListId.delete arg
    someListIdLength := self.someListIdLength - 1 }

/-- Method `removeSomeListId(...ids)`. -/
def ListClass.removeSomeListId (self : ListClass) (ids : List String) : ListClass :=
  ids.foldl ListClass.removeSomeListId1 self

/-- Method `setPromise(funcItem, funcPromise)`. -/
def ListClass.setPromise (self : ListClass) (funcItem : Item → Promise)
    (funcPromise : Aggregate) : ListClass :=
  { self with promise := some { arr := [], funcItem := funcItem, funcPromise := funcPromise } }

/-- Method `createUrlSomeListId()`. -/
def ListClass.createUrlSomeListId (self : ListClass) : String :=
  self.someListId.foldl (fun url kv => url ++ "id=" ++ kv.2 ++ "&") ""

/-! ## Queries on the DOM fragments -/

/-- Applies `f` to the first element of the list that satisfies `p`. -/
def modifyFirst {α : Type} (p : α → Bool) (f : α → α) : List α → List α
  | [] => []
  | x :: xs => if p x then f x :: xs else x :: modifyFirst p f xs

/-- Some `.extra-block` of the `li` satisfies `p`. -/
def Item.hasBlock (p : ExtraBlock → Bool) (it : Item) : Bool :=
  it.children.any (fun n => match n with
    | .extraBlock b => p b
    | _ => false)

/-- The first `.extra-block` of the `li` that satisfies `p`. -/
def Item.firstBlock (p : ExtraBlock → Bool) (it : Item) : Option ExtraBlock :=
  it.children.findSome? (fun n => match n with
    | .extraBlock b => if p b then some b else none
    | _ => none)

/-- Applies `f` to the first `.extra-block` of the `li` that satisfies `p`. -/
def Item.modifyFirstBlock (p : ExtraBlock → Bool) (f : ExtraBlock → ExtraBlock)
    (it : Item) : Item :=
  { it with
    children := modifyFirst
      (fun n => match n with
        | .extraBlock b => p b
        | _ => false)
      (fun n => match n with
        | .extraBlock b => .extraBlock (f b)
        | other => other)
      it.children }

/-- Some `.extra-block` inside the `ul` satisfies `p`. -/
def UList.hasBlock (p : ExtraBlock → Bool) (l : UList) : Bool :=
  l.items.any (Item.hasBlock p)

/-- The first `.extra-block` inside the `ul` that satisfies `p`. -/
def UList.firstBlock (p : ExtraBlock → Bool) (l : UList) : Option ExtraBlock :=
  l.items.findSome? (Item.firstBlock p)

/-- Applies `f` to the first `.extra-block` inside the `ul` that satisfies `p`. -/
def UList.modifyFirstBlock (p : ExtraBlock → Bool) (f : ExtraBlock → ExtraBlock)
    (l : UList) : UList :=
  { l with items := modifyFirst (Item.hasBlock p) (Item.modifyFirstBlock p f) l.items }

/-- Some `.extra-block` inside the container satisfies `p`. -/
def Container.hasBlock (p : ExtraBlock → Bool) (c : Container) : Bool :=
  (match c.extraBlock with
    | some b => p b
    | none => false) || c.lists.any (UList.hasBlock p)

/-- The first `.extra-block` inside the container, in document order, that satisfies `p`:
the container's own block comes before the blocks of the items of its lists. -/
def Container.firstBlock (p : ExtraBlock → Bool) (c : Container) : Option ExtraBlock :=
  match c.extraBlock with
  | some b => if p b then some b else c.lists.findSome? (UList.firstBlock p)
  | none => c.lists.findSome? (UList.firstBlock p)

/-- Applies `f` to the first `.extra-block` inside the container that satisfies `p`. -/
def Container.modifyFirstBlock (p : ExtraBlock → Bool) (f : ExtraBlock → ExtraBlock)
    (c : Container) : Container :=
  let inner : Container :=
    { c with lists := modifyFirst (UList.hasBlock p) (UList.modifyFirstBlock p f) c.lists }
  match c.extraBlock with
  | some b => if p b then { c with extraBlock := some (f b) } else inner
  | none => inner

/-- Selector `.extra-block`: every block matches. -/
def anyBlock : ExtraBlock → Bool :=
  fun _ => true

/-- The block has a `.preload` child. -/
def ExtraBlock.hasPreload (b : ExtraBlock) : Bool :=
  decide (0 < b.preload)

/-- The block has a `.msg-block` child. -/
def ExtraBlock.hasMsg (b : ExtraBlock) : Bool :=
  !b.msgs.isEmpty

/-- The `ul` carries the class `cls`. -/
def UList.hasClass (cls : String) (l : UList) : Bool :=
  l.classes.contains cls

/-- Applies `f` to the class list of the first `ul` of the container that has class `cls`
(`parent.querySelector("." + cls).classList`). -/
def Container.onFirstList (cls : String) (f : List String → List String)
    (c : Container) : Container :=
  let onList : UList → UList := fun l => { l with classes := f l.classes }
  { c with lists := modifyFirst (UList.hasClass cls) onList c.lists }

/-! ## Constants of the script -/

def urlUsers : String := "https://json.medrating.org/users/"
def urlAlbums : String := "https://json.medrating.org/albums"
def urlPhotos : String := "https://json.medrating.org/photos"
def urlPreload : String := "img/loader.gif"
def urlErrorImg : String := "img/error.png"
def urlEmptyImg : String := "img/empty.png"
def favoritePrefix : String := "fav_"

/-! ## Message blocks and the load indicator -/

/-- Function `createMsgBlock(srcImg, title, description)`. -/
def createMsgBlock (srcImg title description : String) : MsgBlock :=
  { classes := ["msg-block"], img := srcImg, title := title, description := description }

/-- The block appended by `emptyFavoriteTabs`. -/
def emptyMsg : MsgBlock :=
  createMsgBlock urlEmptyImg "Список избранного пуст"
    "Добавляйте изображения, нажимая на звездочки"

/-- The block appended by `errorLoad`. -/
def errorMsg : MsgBlock :=
  createMsgBlock urlErrorImg "Сервер не отвечает" "Уже работает над этим"

/-- Function `notEmptyFavoriteTabs()`, acting on the element `tabsFavorite`. -/
def notEmptyFavoriteTabs (tabsFavorite : Container) : Container :=
  let t1 := tabsFavorite.onFirstList "list__photos" (fun cls => classRemove cls "_hidden")
  t1.modifyFirstBlock anyBlock (fun b => { b with classes := classAdd b.classes "_hidden" })

/-- Function `emptyFavoriteTabs()`, acting on the element `tabsFavorite`.  When the tab has no
`.extra-block` the assignment to the constant `extraBlock` raises a `TypeError`. -/
def emptyFavoriteTabs (tabsFavorite : Container) : Res Container :=
  let t1 := tabsFavorite.onFirstList "list__photos" (fun cls => classAdd cls "_hidden")
  if t1.hasBlock anyBlock then
    { st := t1.modifyFirstBlock anyBlock (fun b =>
        { b with
          msgs := b.msgs.drop 1 ++ [emptyMsg]
          classes := classRemove b.classes "_hidden" }) }
  else
    { st := t1, thrown := some "TypeError: Assignment to constant variable." }

/-- First statement of `errorLoad`:
`if (parent.querySelector(".preload")) extraBlock.removeChild(parent.querySelector(".preload"))`,
where `extraBlock` is `parent.querySelector(".extra-block")`. -/
def errorLoadPreload (parent : Container) : Res Container :=
  if parent.hasBlock ExtraBlock.hasPreload then
    match parent.firstBlock anyBlock with
    | some b =>
      if b.hasPreload then
        { st := parent.modifyFirstBlock anyBlock (fun b => { b with preload := b.preload - 1 }) }
      else
        { st := parent, thrown := some "NotFoundError: the node is not a child of this node" }
    | none => { st := parent, thrown := some "TypeError: extraBlock is null" }
  else { st := parent }

/-- Rest of `errorLoad`: the message block is shown again when the container is marked
`_added-msg`, and appended otherwise. -/
def errorLoadMsg (parent : Container) : Res Container :=
  if parent.classes.contains "_added-msg" then
    if parent.hasBlock ExtraBlock.hasMsg then
      { st := parent.modifyFirstBlock ExtraBlock.hasMsg (fun b =>
          { b with msgs := match b.msgs with
              | [] => []
              | m :: ms => { m with classes := classRemove m.classes "_hidden" } :: ms }) }
    else { st := parent, thrown := some "TypeError: parent.querySelector(...) is null" }
  else if parent.hasBlock anyBlock then
    { st :=
        { parent.modifyFirstBlock anyBlock (fun b => { b with msgs := b.msgs ++ [errorMsg] }) with
          classes := classAdd parent.classes "_added-msg" } }
  else { st := parent, thrown := some "TypeError: extraBlock is null" }

/-- Function `errorLoad(parent)`. -/
def errorLoad (parent : Container) : Res Container :=
  let step1 := errorLoadPreload parent
  match step1.thrown with
  | some e => { st := step1.st, thrown := some e }
  | none => errorLoadMsg step1.st

/-! ## Decorators -/

/-- Function `createSimpleTitle(titleText, parent)`; `parent` must be the `li`. -/
def createSimpleTitle (args : List Arg) (item : Item) : Res Item :=
  match args with
  | titleText :: .handle :: _ =>
    { st := { item with children := item.children ++ [.itemTitle titleText 0] } }
  | _ => { st := item, thrown := some "TypeError: parent.appendChild is not a function" }

/-- Function `createItemTitle(titleText, parent)`: the button goes into the first
`.list__item-title` of the `li`. -/
def createItemTitle (args : List Arg) (item : Item) : Res Item :=
  let r := createSimpleTitle args item
  match r.thrown with
  | some e => { st := r.st, thrown := some e }
  | none =>
    { st := { r.st with
        children := modifyFirst
          (fun n => match n with
            | .itemTitle _ _ => true
            | _ => false)
          (fun n => match n with
            | .itemTitle t k => .itemTitle t (k + 1)
            | other => other)
          r.st.children } }

/-- Function `addThumbnailPhoto(imgSource, parent)`. -/
def addThumbnailPhoto (args : List Arg) (item : Item) : Res Item :=
  match args with
  | imgSource :: .handle :: _ =>
    { st := { item with
        children := item.children ++ [.thumbnailPhoto imgSource, .star true, .star false] } }
  | _ => { st := item, thrown := some "TypeError: parent.appendChild is not a function" }

/-- Function `imgLoaded(elem)` applied to `elem.querySelector(".thumbnail-photo")`,
the `funcItem` of the photo List. -/
def imgLoaded (elem : Item) : Promise :=
  { owner := elem.id
    img := elem.children.findSome? (fun n => match n with
      | .thumbnailPhoto src => some src
      | _ => none) }

/-! ## Module set-up -/

def f1 : FuncObj := { func := createItemTitle, attr := some "name" }
def f2 : FuncObj := { func := addThumbnailPhoto, attr := some "thumbnailUrl" }
def f3 : FuncObj := { func := createSimpleTitle, attr := some "title" }

/-- The List of users. -/
def paramsUser : ListClass :=
  ({ ListClass.new "user" with extraBlock := true }).addFunction [f1]

/-- The List of albums; `f1.attr` was set to `"title"` before the registration. -/
def paramsAlbum : ListClass :=
  ({ ListClass.new "album" with extraBlock := true }).addFunction [{ f1 with attr := some "title" }]

/-- The List of photos. -/
def paramsPhoto : ListClass :=
  (((({ ListClass.new "photo" with waitAllLoad := true }).addClassItem ["photo"]).addFunction
    [f2, f3]).setPromise imgLoaded Aggregate.waitAllPromises)

/-! ## Building a list -/

/-- The data handed to `createList`: an array of records, the object `{}` or `null`. -/
inductive ListData where
  | array (rs : List Record)
  | emptyObject
  | null
  deriving DecidableEq, Repr

/-- The loop `for (let f in params.funcs)` of `createList` for one record; it stops at the
first decorator that raises. -/
def applyFuncs : List (String × FuncObj) → Record → Item → Res Item
  | [], _, item => { st := item }
  | (_, func) :: rest, r, item =>
    let step : Res Item :=
      match func.attr with
      | none => func.func [.handle] item
      | some attr => func.func [.val (r.get attr), .handle] item
    match step.thrown with
    | some e => { st := step.st, thrown := some e }
    | none => applyFuncs rest r step.st

/-- The part of the loop body of `createList` that builds one `li` up to its class `_active`. -/
def createItem (params : ListClass) (isFavoriteTab : Bool) (r : Record) : Res Item :=
  let item0 : Item :=
    { id := "" ++ (params.id ++ "=" ++ (r.get "id").toStr)
      classes := params.classItem.foldl classAdd (classAdd [] (params.listName ++ "-item"))
      children := [] }
  let decorated := applyFuncs params.funcs r item0
  match decorated.thrown with
  | some e => { st := decorated.st, thrown := some e }
  | none =>
    let item1 := decorated.st
    let item2 : Item :=
      if isFavoriteTab then
        { item1 with
          id := favoritePrefix ++ item1.id
          classes := if item1.classes.contains "photo" then classAdd item1.classes "_active"
            else item1.classes }
      else item1
    let item3 : Item :=
      if 0 < params.getSizeSomeListId ∧ params.someListId.has item2.id = true then
        { item2 with classes := classAdd item2.classes "_active" }
      else item2
    { st := item3 }

/-- State of the loop of `createList`: the items appended so far and `listPromise.arr`. -/
structure LoopState where
  items : List Item
  arr : List Promise
  thrown : Option String := none

/-- The loop `for (let i = 0; i < listData.length; i++)` of `createList`. -/
def createListLoop (params : ListClass) (isFavoriteTab : Bool) :
    List Record → LoopState → LoopState
  | [], s => s
  | r :: rs, s =>
    let built := createItem params isFavoriteTab r
    match built.thrown with
    | some e => { items := s.items ++ [built.st], arr := s.arr, thrown := some e }
    | none =>
      let arr1 :=
        match params.promise with
        | some lp => s.arr ++ [lp.funcItem built.st]
        | none => s.arr
      let item :=
        if params.extraBlock then
          { built.st with
            children := built.st.children ++
              [.extraBlock { classes := ["extra-block", "_hidden"], preload := 0, msgs := [] }] }
        else built.st
      createListLoop params isFavoriteTab rs { items := s.items ++ [item], arr := arr1 }

/-- The call `listPromise.funcPromise(arr, parent, list, useListId, size)`; `elem` is the
position of `list` among the lists of `parent`. -/
structure AggregateCall where
  func : Aggregate
  arr : List Promise
  elem : Nat
  useListId : Bool
  someListIdLength : Int
  deriving DecidableEq, Repr

/-- What `createList` leaves behind. -/
structure Rendered where
  parent : Container
  params : ListClass
  call : Option AggregateCall := none
  thrown : Option String := none

/-- The end of `createList`, after the loop: with a per-item promise the info block of the
container is shown and the aggregate function is called; without one the info block is hidden,
its `.preload` removed and the first list of class `listName` revealed. -/
def createListFinish (parent : Container) (params : ListClass) (elem : Nat)
    (useListId : Bool) : Rendered :=
  match params.promise with
  | some lp =>
    if parent.hasBlock anyBlock then
      { parent := parent.modifyFirstBlock anyBlock
          (fun b => { b with classes := classRemove b.classes "_hidden" })
        params := params
        call := some
          { func := lp.funcPromise
            arr := lp.arr
            elem := elem
            useListId := useListId
            someListIdLength := params.getSizeSomeListId } }
    else
      { parent := parent, params := params
        thrown := some "TypeError: parent.querySelector(...) is null" }
  | none =>
    if parent.hasBlock anyBlock then
      let parent3 := parent.modifyFirstBlock anyBlock (fun b =>
        { b with classes := classAdd b.classes "_hidden", preload := b.preload - 1 })
      { parent := parent3.onFirstList params.listName (fun cls => classRemove cls "_hidden")
        params := params }
    else
      { parent := parent, params := params
        thrown := some "TypeError: extraBlockParent is null" }

/-- The records `createList` iterates over: `listData.length` is undefined for `{}`. -/
def ListData.records : ListData → List Record
  | .array rs => rs
  | _ => []

/-- Function `createList(listData, parent, params, useListId)`. -/
def createList (listData : ListData) (parent : Container) (params : ListClass)
    (useListId : Bool) : Rendered :=
  let listClasses := params.classList.foldl classAdd (classAdd [] params.listName)
  let elem := parent.lists.length
  let parent1 : Container := { parent with classes := classAdd parent.classes "_added-list" }
  let isFavoriteTab := parent1.classes.contains "tabs__favorite"
  let arr0 : List Promise :=
    match params.promise with
    | some lp => lp.arr
    | none => []
  if listData = ListData.null then
    { parent := { parent1 with lists := parent1.lists ++ [{ classes := listClasses, items := [] }] }
      params := params
      thrown := some "TypeError: Cannot read properties of null (reading length)" }
  else
    let loop := createListLoop params isFavoriteTab listData.records { items := [], arr := arr0 }
    let parent2 : Container :=
      { parent1 with lists := parent1.lists ++ [{ classes := listClasses, items := loop.items }] }
    let params1 : ListClass :=
      match params.promise with
      | some lp => { params with promise := some { lp with arr := loop.arr } }
      | none => params
    match loop.thrown with
    | some e => { parent := parent2, params := params1, thrown := some e }
    | none => createListFinish parent2 params1 elem useListId

/-! ## The aggregate barrier -/

/-- Applies `f` to the element at position `i`. -/
def modifyAt {α : Type} (f : α → α) : Nat → List α → List α
  | _, [] => []
  | 0, x :: xs => f x :: xs
  | i + 1, x :: xs => x :: modifyAt f i xs

/-- `Promise.all(arr)` in terms of how the signals end: rejected as soon as one signal fails,
fulfilled once all have succeeded, pending otherwise. -/
def Promise_all (outcomes : List Outcome) : Outcome :=
  if outcomes.contains Outcome.failure then Outcome.failure
  else if outcomes.contains Outcome.pending then Outcome.pending
  else Outcome.success

/-- The `then` callback of `waitAllPromises`, run on the state the container has at that time. -/
def waitAllPromisesThen (parent : Container) (elem : Nat) (useListId : Bool)
    (someListIdLength : Int) : Res Container :=
  let p1 : Container :=
    if parent.hasBlock anyBlock then
      parent.modifyFirstBlock anyBlock (fun b =>
        { b with classes := classAdd b.classes "_hidden", preload := b.preload - 1 })
    else parent
  let reveal : UList → UList := fun l => { l with classes := classRemove l.classes "_hidden" }
  let p2 : Container := { p1 with lists := modifyAt reveal elem p1.lists }
  if useListId then
    if someListIdLength = 0 ∧ p2.classes.contains "tabs__favorite" = true then
      emptyFavoriteTabs p2
    else { st := p2 }
  else { st := p2 }

/-- What `waitAllPromises` has done once `Promise.all` is settled: the container, which of the
two callbacks ran, and the error left unhandled. -/
structure Settled where
  parent : Container
  ranThen : Bool
  ranCatch : Bool
  thrown : Option String := none

/-- Function `waitAllPromises(arr, parent, elem, useListId, someListIdLength)`, with the
signals of `arr` given by how they end.  `Promise.all(arr).then(f).catch(g)` runs `f` when every
signal succeeds and `g` when a signal fails or `f` raises. -/
def waitAllPromises (arr : List Outcome) (parent : Container) (elem : Nat) (useListId : Bool)
    (someListIdLength : Int) : Settled :=
  match Promise_all arr with
  | .pending => { parent := parent, ranThen := false, ranCatch := false }
  | .success =>
    let r := waitAllPromisesThen parent elem useListId someListIdLength
    match r.thrown with
    | none => { parent := r.st, ranThen := true, ranCatch := false }
    | some _ =>
      let c := errorLoad r.st
      { parent := c.st, ranThen := true, ranCatch := true, thrown := c.thrown }
  | .failure =>
    let c := errorLoad parent
    { parent := c.st, ranThen := false, ranCatch := true, thrown := c.thrown }

/-- The aggregate call left by `createList`, settled under `env`, which tells how each
signal ends. -/
def AggregateCall.settle (call : AggregateCall) (env : Promise → Outcome)
    (parent : Container) : Settled :=
  match call.func with
  | .waitAllPromises =>
    waitAllPromises (call.arr.map env) parent call.elem call.useListId call.someListIdLength

/-! ## Loading a list -/

/-- What the synchronous part of `addList` leaves behind: the container, the List, the URLs
handed to `getDataJSON`, the aggregate call made by `createList`, and the error raised. -/
structure Added where
  parent : Container
  params : ListClass
  requests : List String := []
  call : Option AggregateCall := none
  thrown : Option String := none

/-- Function `addList(url, parent, params, useListId)` up to the point where it returns; the
response of a request is handled by `addListResponse`. -/
def addList (url : String) (parent : Container) (params : ListClass)
    (useListId : Bool) : Added :=
  if useListId then
    if params.getSizeSomeListId = 0 then
      if parent.classes.contains "tabs__favorite" then
        let e := emptyFavoriteTabs parent
        match e.thrown with
        | some err => { parent := e.st, params := params, thrown := some err }
        | none =>
          let r := createList ListData.emptyObject e.st params useListId
          { parent := r.parent, params := r.params, call := r.call, thrown := r.thrown }
      else { parent := parent, params := params }
    else
      { parent := parent, params := params
        requests := [url ++ "?" ++ params.createUrlSomeListId] }
  else
    { parent := parent, params := params
      requests := [url ++ (if parent.id ≠ "" then "?" ++ parent.id else "")] }

/-- The two continuations of `getDataJSON(url, parent).then(...)` in `addList`: `createList` on
a response (`some`), `errorLoad` on a rejection (`none`). -/
def addListResponse (response : Option ListData) (parent : Container) (params : ListClass)
    (useListId : Bool) : Rendered :=
  match response with
  | some data => createList data parent params useListId
  | none =>
    let e := errorLoad parent
    { parent := e.st, params := params, thrown := e.thrown }

/-! ## Favourites -/

/-- The reconciliation callbacks. -/
inductive Callback where
  | notEmptyFavoriteTabs
  | emptyFavoriteTabs
  deriving DecidableEq, Repr

/-- The document as far as the favourites are concerned: the elements with an id that precede
the favourites tab (the catalog), the element `tabsFavorite`, and the record of the
reconciliation callbacks that `addFavoriteImg` and `removeFavoriteImg` have invoked so far. -/
structure Page where
  catalog : List Item
  tabsFavorite : Container
  calls : List Callback
  deriving DecidableEq, Repr

/-- Where `document.getElementById` finds an element. -/
inductive Loc where
  | catalog (i : Nat)
  | favorite (l : Nat) (i : Nat)
  deriving DecidableEq, Repr

/-- Position of the first item with the given id among the lists, counting lists from `l`. -/
def findInLists (id : String) : List UList → Nat → Option Loc
  | [], _ => none
  | u :: us, l =>
    match u.items.findIdx? (fun it => it.id = id) with
    | some i => some (Loc.favorite l i)
    | none => findInLists id us (l + 1)

/-- `document.getElementById(id)`. -/
def Page.getElementById (pg : Page) (id : String) : Option Loc :=
  match pg.catalog.findIdx? (fun it => it.id = id) with
  | some i => some (Loc.catalog i)
  | none => findInLists id pg.tabsFavorite.lists 0

/-- Applies `f` to the element at `loc`. -/
def Page.modifyElement (pg : Page) (loc : Loc) (f : Item → Item) : Page :=
  match loc with
  | .catalog i => { pg with catalog := modifyAt f i pg.catalog }
  | .favorite l i =>
    let onList : UList → UList := fun u => { u with items := modifyAt f i u.items }
    { pg with tabsFavorite :=
        { pg.tabsFavorite with lists := modifyAt onList l pg.tabsFavorite.lists } }

/-- Position of `tabsFavorite.querySelector(".list__photos")` among the lists of the tab. -/
def Page.listPhotos (pg : Page) : Option Nat :=
  pg.tabsFavorite.lists.findIdx? (UList.hasClass "list__photos")

/-- Function `addFavoriteImg(elem, params)`. -/
def addFavoriteImg (elem : Item) (pg : Page) (params : ListClass) : Page × ListClass :=
  let listPhotos := pg.listPhotos
  let pg1 : Page :=
    if params.getSizeSomeListId = 0 then
      { pg with
        tabsFavorite := notEmptyFavoriteTabs pg.tabsFavorite
        calls := pg.calls ++ [Callback.notEmptyFavoriteTabs] }
    else pg
  let params1 := params.addSomeListId [elem.id]
  match listPhotos with
  | none => (pg1, params1)
  | some l =>
    let child : Item := { elem with id := favoritePrefix ++ elem.id }
    let onList : UList → UList := fun u => { u with items := u.items ++ [child] }
    ({ pg1 with tabsFavorite :=
        { pg1.tabsFavorite with lists := modifyAt onList l pg1.tabsFavorite.lists } }, params1)

/-- The identifier `elemId` computed at the start of `removeFavoriteImg`: the identifier of
the element, without the favourites marker when it contains it. -/
def favoriteElemId (elem : Item) : String :=
  if indexOf elem.id favoritePrefix > -1 then slice elem.id favoritePrefix.length
  else elem.id

/-- `photoCat = document.getElementById(elemId); if (photoCat != null)
photoCat.classList.remove("_active")`. -/
def deactivatePhotoCat (pg : Page) (elemId : String) : Page :=
  match pg.getElementById elemId with
  | some loc =>
    pg.modifyElement loc (fun it => { it with classes := classRemove it.classes "_active" })
  | none => pg

/-- `if (photoFav != null && listPhotos != null) listPhotos.removeChild(photoFav)`, where
`photoFav = document.getElementById(favoritePrefix + elemId)`; `removeChild` raises when
`photoFav` is not a child of `listPhotos`. -/
def removePhotoFav (pg : Page) (elemId : String) : Res Page :=
  match pg.getElementById (favoritePrefix ++ elemId), pg.listPhotos with
  | some loc, some l =>
    match loc with
    | .favorite l1 i =>
      if l1 = l then
        let onList : UList → UList := fun u => { u with items := u.items.eraseIdx i }
        { st := { pg with tabsFavorite :=
            { pg.tabsFavorite with lists := modifyAt onList l pg.tabsFavorite.lists } } }
      else { st := pg, thrown := some "NotFoundError: the node is not a child of this node" }
    | .catalog _ =>
      { st := pg, thrown := some "NotFoundError: the node is not a child of this node" }
  | _, _ => { st := pg }

/-- Function `removeFavoriteImg(elem, params)`. -/
def removeFavoriteImg (elem : Item) (pg : Page) (params : ListClass) : Res (Page × ListClass) :=
  let elemId := favoriteElemId elem
  let removed := removePhotoFav (deactivatePhotoCat pg elemId) elemId
  match removed.thrown with
  | some e => { st := (removed.st, params), thrown := some e }
  | none =>
    let pg2 := removed.st
    let params1 := params.removeSomeListId [elemId]
    if params1.getSizeSomeListId = 0 then
      let e := emptyFavoriteTabs pg2.tabsFavorite
      { st := ({ pg2 with tabsFavorite := e.st, calls := pg2.calls ++ [Callback.emptyFavoriteTabs] },
          params1)
        thrown := e.thrown }
    else { st := (pg2, params1) }

/-! ## The popup -/

/-- The popup and the styles of `body` set by `showPopupImg`. -/
structure Popup where
  classes : List String
  bodyPaddingRight : String
  bodyOverflow : String
  deriving DecidableEq, Repr

/-- Function `showPopupImg(elem)` up to the call of `getDataJSON`: the popup and the
requested URL.  `innerWidth` and `offsetWidth` are the widths of the window and of `body`. -/
def showPopupImg (elem : Item) (popup : Popup) (innerWidth offsetWidth : Int) :
    Popup × String :=
  let popup1 : Popup :=
    { classes := classAdd popup.classes "_active"
      bodyPaddingRight := toString (innerWidth - offsetWidth) ++ "px"
      bodyOverflow := "hidden" }
  let imgId : String :=
    if indexOf elem.id paramsPhoto.id > -1 then slice elem.id (paramsPhoto.id.length + 1)
    else elem.id
  (popup1, urlPhotos ++ "?id=" ++ imgId)

/-! ## Persistence

`JSON.stringify` and `JSON.parse` for the object `someListId`, whose values are strings.
`JSON.parse` is restricted to the texts of that shape (an object with string values and no
insignificant white space); on any other text the model answers `none`. -/

def chQuote : Char := Char.ofNat 34
def chBackslash : Char := Char.ofNat 92
def chComma : Char := Char.ofNat 44
def chColon : Char := Char.ofNat 58
def chOpen : Char := Char.ofNat 123
def chClose : Char := Char.ofNat 125

/-- The escape sequence `JSON.stringify` writes for one character of a string. -/
def escapeChar (c : Char) : List Char :=
  if c = Char.ofNat 8 then [chBackslash, 'b']
  else if c = Char.ofNat 9 then [chBackslash, 't']
  else if c = Char.ofNat 10 then [chBackslash, 'n']
  else if c = Char.ofNat 12 then [chBackslash, 'f']
  else if c = Char.ofNat 13 then [chBackslash, 'r']
  else if c = chQuote then [chBackslash, chQuote]
  else if c = chBackslash then [chBackslash, chBackslash]
  else if c.toNat < 32 then
    [chBackslash, 'u', '0', '0', Nat.digitChar (c.toNat / 16), Nat.digitChar (c.toNat % 16)]
  else [c]

/-- The quoted form of a string (`QuoteJSONString`). -/
def quoteJSONString (s : String) : List Char :=
  chQuote :: (s.data.flatMap escapeChar ++ [chQuote])

/-- The members of the object, separated by commas. -/
def stringifyMembers : Store → List Char
  | [] => []
  | [(k, v)] => quoteJSONString k ++ chColon :: quoteJSONString v
  | (k, v) :: rest => quoteJSONString k ++ chColon :: quoteJSONString v ++ chComma :: stringifyMembers rest

/-- `JSON.stringify(o)` for the object `someListId`. -/
def JSON_stringify (o : Store) : String :=
  ⟨chOpen :: (stringifyMembers o ++ [chClose])⟩

/-- Value of a hexadecimal digit. -/
def hexVal (c : Char) : Option Nat :=
  if c.isDigit then some (c.toNat - 48)
  else if 97 ≤ c.toNat ∧ c.toNat ≤ 102 then some (c.toNat - 87)
  else if 65 ≤ c.toNat ∧ c.toNat ≤ 70 then some (c.toNat - 55)
  else none

/-- The character named by a single-character escape. -/
def unescape (e : Char) : Option Char :=
  if e = 'b' then some (Char.ofNat 8)
  else if e = 't' then some (Char.ofNat 9)
  else if e = 'n' then some (Char.ofNat 10)
  else if e = 'f' then some (Char.ofNat 12)
  else if e = 'r' then some (Char.ofNat 13)
  else if e = chQuote then some chQuote
  else if e = chBackslash then some chBackslash
  else if e = Char.ofNat 47 then some (Char.ofNat 47)
  else none

/-- Reads the four hexadecimal digits of a `u` escape. -/
def readHex4 : List Char → Option (Char × List Char)
  | h1 :: h2 :: h3 :: h4 :: rest =>
    match hexVal h1, hexVal h2, hexVal h3, hexVal h4 with
    | some a, some b, some c, some d => some (Char.ofNat (((a * 16 + b) * 16 + c) * 16 + d), rest)
    | _, _, _, _ => none
  | _ => none

/-- Reads an escape sequence after its backslash. -/
def readEscape : List Char → Option (Char × List Char)
  | [] => none
  | e :: rest =>
    if e = 'u' then readHex4 rest
    else
      match unescape e with
      | some ch => some (ch, rest)
      | none => none

/-- Reads one character of the body of a JSON string; control characters must be escaped. -/
def readChar : List Char → Option (Char × List Char)
  | [] => none
  | c :: rest =>
    if c = chBackslash then readEscape rest
    else if c.toNat < 32 then none
    else some (c, rest)

/-- Reads a JSON string after its opening quote: the string and the text after its closing
quote.  The fuel bounds the number of characters read. -/
def readString : Nat → List Char → Option (List Char × List Char)
  | 0, _ => none
  | _ + 1, [] => none
  | fuel + 1, c :: rest =>
    if c = chQuote then some ([], rest)
    else
      match readChar (c :: rest) with
      | some (ch, rest1) =>
        match readString fuel rest1 with
        | some (s, r) => some (ch :: s, r)
        | none => none
      | none => none

/-- Reads one member `"key":"value"`. -/
def readMember (text : List Char) : Option ((String × String) × List Char) :=
  match text with
  | [] => none
  | q :: t1 =>
    if q = chQuote then
      match readString t1.length t1 with
      | some (k, colon :: q2 :: t2) =>
        if colon = chColon ∧ q2 = chQuote then
          match readString t2.length t2 with
          | some (v, t3) => some ((String.mk k, String.mk v), t3)
          | none => none
        else none
      | _ => none
    else none

/-- Reads the members of an object up to the end of the text; a repeated key overwrites. -/
def readMembers : Nat → List Char → Store → Option Store
  | 0, _, _ => none
  | fuel + 1, text, acc =>
    match readMember text with
    | some ((k, v), [c]) => if c = chClose then some (acc.set k v) else none
    | some ((k, v), c :: rest) =>
      if c = chComma then readMembers fuel rest (acc.set k v) else none
    | _ => none

/-- `JSON.parse(text)` for a text that denotes an object with string values. -/
def JSON_parse (text : String) : Option Store :=
  match text.data with
  | o :: c :: rest =>
    if o = chOpen then
      if c = chClose ∧ rest = [] then some []
      else readMembers text.data.length (c :: rest) []
    else none
  | _ => none

/-- The `beforeunload` handler: the text stored under the key `favoriteListId`. -/
def beforeunload (params : ListClass) : String :=
  JSON_stringify params.someListId

/-- The restore at page start: `item` is `localStorage.getItem("favoriteListId")`; every key
of the parsed object is added to the List.  The answer is `none` when `JSON.parse` raises. -/
def restoreFavorites (item : Option String) (params : ListClass) : Option ListClass :=
  match item with
  | none => some params
  | some text =>
    match JSON_parse text with
    | some parseListId => some (parseListId.keys.foldl (fun p key => p.addSomeListId [key]) params)
    | none => none

/-! ## States of the photo List -/

/-- The List `paramsPhoto` with a given favourites store, counter and signal array. -/
def photoState (store : Store) (len : Int) (arr : List Promise) : ListClass :=
  { paramsPhoto with
    someListId := store
    someListIdLength := len
    promise := some { arr := arr, funcItem := imgLoaded, funcPromise := Aggregate.waitAllPromises } }

/-- An album item of the catalog, before its photos are loaded. -/
def albumItem (id : String) : Container :=
  { id := id
    classes := ["list__albums-item", "_active"]
    extraBlock := some { classes := ["extra-block"], preload := 1, msgs := [] }
    lists := [] }

/-- A photo record of the data source. -/
def photoRecord (n : Nat) : Record :=
  [("albumId", Val.num 1), ("id", Val.num n), ("title", Val.str "t"),
   ("url", Val.str "u"), ("thumbnailUrl", Val.str "s")]

/-- The `li` built for a photo record: its identifier, whether it carries the class
`_active`, and the children appended by the two decorators of the photo List. -/
def photoItem (id : String) (active : Bool) (r : Record) : Item :=
  { id := id
    classes :=
      if active then ["list__photos-item", "photo", "_active"] else ["list__photos-item", "photo"]
    children :=
      [.thumbnailPhoto (.val (r.get "thumbnailUrl")), .star true, .star false,
       .itemTitle (.val (r.get "title")) 0] }

/-- A state of the element `tabsFavorite` (selected by `.tabs__favorite`): hidden, with an info
block and no list yet.  The markup of the page is not part of the script; the general
statements take the container as a parameter. -/
def favoriteTabBlock : Container :=
  { id := ""
    classes := ["tabs__block", "tabs__favorite", "_hidden"]
    extraBlock := some { classes := ["extra-block", "_hidden"], preload := 0, msgs := [] }
    lists := [] }

/-- The empty-favourites message is shown in the info block of the container: the block does
not carry the class `_hidden` and holds the message block, itself without that class. -/
def Container.showsEmptyMsg (c : Container) : Prop :=
  ∃ b : ExtraBlock, c.extraBlock = some b ∧ "_hidden" ∉ b.classes ∧ emptyMsg ∈ b.msgs

/-- What `getElementById` and `listPhotos` see of a list: whether it is a photo list, and the
identifiers of its items. -/
def UList.outline (u : UList) : Bool × List String :=
  (u.hasClass "list__photos", u.items.map Item.id)

/-- What `getElementById` and `listPhotos` see of the document. -/
def Page.outline (pg : Page) : List String × List (Bool × List String) :=
  (pg.catalog.map Item.id, pg.tabsFavorite.lists.map UList.outline)

/-- The second of two renders with the photo List: photo 1 into the album item 1, then
photo 2 into the album item 2. -/
def secondRender : Rendered :=
  createList (.array [photoRecord 2]) (albumItem "albumId=2")
    (createList (.array [photoRecord 1]) (albumItem "albumId=1") paramsPhoto false).params false

/-- The thumbnail of the item `photoId=1` fails to load, every other one loads. -/
def firstThumbnailFails (p : Promise) : Outcome :=
  if p.owner = "photoId=1" then Outcome.failure else Outcome.success

/-- The photo List after `addSomeListId("photoId=1")` and `removeSomeListId("photoId=2")`. -/
def driftedPhotoList : ListClass :=
  (paramsPhoto.addSomeListId ["photoId=1"]).removeSomeListId ["photoId=2"]

/-! ## The request handlers of `getDataJSON` -/

/-- The handler `request.onloadstart` of `getDataJSON(url, elem)`, which runs when the request
is sent; `extraBlock` is `elem.querySelector(".extra-block")`.  The info block is shown, gets a
`.preload` unless it has one, and its first message block is hidden. -/
def getDataJSONLoadStart (elem : Container) : Container :=
  elem.modifyFirstBlock anyBlock (fun b =>
    { classes := classRemove b.classes "_hidden"
      preload := if b.preload = 0 then 1 else b.preload
      msgs := match b.msgs with
        | [] => []
        | m :: ms => { m with classes := classAdd m.classes "_hidden" } :: ms })

/-- The handler `request.onload` of `getDataJSON(url, elem)` for status 200, up to `resolve`:
a container marked `_added-msg` loses the mark, and `extraBlock.removeChild` is given the first
message block of the container.  `extraBlock` is the first info block of the container, which
is its own one when it has one. -/
def getDataJSONLoad (elem : Container) : Res Container :=
  if elem.classes.contains "_added-msg" then
    let e1 : Container := { elem with classes := classRemove elem.classes "_added-msg" }
    match e1.firstBlock anyBlock with
    | none => { st := e1 }
    | some b =>
      if e1.hasBlock ExtraBlock.hasMsg then
        if b.hasMsg then
          { st := e1.modifyFirstBlock anyBlock (fun b => { b with msgs := b.msgs.drop 1 }) }
        else { st := e1, thrown := some "NotFoundError: the node is not a child of this node" }
      else { st := e1, thrown := some "TypeError: parameter 1 is not of type Node" }
  else { st := elem }

/-- The events of the load indicator of one container: a request is sent, a load fails. -/
inductive LoadEvent where
  | loadStart
  | errorLoad
  deriving DecidableEq, Repr

/-- The container after a sequence of load events; an error raised by `errorLoad` ends it. -/
def runLoadEvents : List LoadEvent → Container → Res Container
  | [], c => { st := c }
  | .loadStart :: evs, c => runLoadEvents evs (getDataJSONLoadStart c)
  | .errorLoad :: evs, c =>
    let r := errorLoad c
    match r.thrown with
    | some e => { st := r.st, thrown := some e }
    | none => runLoadEvents evs r.st

/-- The message block is an error message block. -/
def MsgBlock.isError (m : MsgBlock) : Bool :=
  decide (m.img = urlErrorImg)

/-! ## Expanding an item -/

/-- What a click on an expand control leaves behind: the class list of the control, the item
and the call of `addList`, if any. -/
structure DropdownClick where
  btn : List String
  listItem : Container
  added : Option Added

/-- The branch of `clickOnContentTabs` for a click on `li .dropdown-btn`: `btn` is the class list
of the control, `listItem` its `li`, `photo` the List `paramsPhoto` as it is at that time.  An
album item loads photos, a user item albums. -/
def clickOnDropdownBtn (btn : List String) (listItem : Container) (photo : ListClass) :
    DropdownClick :=
  let btn1 := classToggle btn "_active"
  let item1 : Container := { listItem with classes := classToggle listItem.classes "_active" }
  if item1.classes.contains "_added-list" || !item1.classes.contains "_active" then
    { btn := btn1, listItem := item1, added := none }
  else if item1.classes.contains "list__albums-item" then
    { btn := btn1, listItem := item1, added := some (addList urlPhotos item1 photo false) }
  else if item1.classes.contains "list__users-item" then
    { btn := btn1, listItem := item1, added := some (addList urlAlbums item1 paramsAlbum false) }
  else { btn := btn1, listItem := item1, added := none }

/-- What happens to one user or album item: a click on its expand control, the answer of one of
its requests with status 200, the rejection of one of its requests, and the settling of the
aggregate barrier of one of its photo lists.  `photo` is the List `paramsPhoto` as it is then. -/
inductive ItemEvent where
  | click (photo : ListClass)
  | loaded (data : ListData) (photo : ListClass)
  | failed
  | settled (arr : List Outcome) (elem : Nat) (len : Int)

/-- An item with its expand control, the URLs of the loads triggered so far and the number of
requests not yet answered. -/
structure ItemState where
  btn : List String
  listItem : Container
  requests : List String
  pending : Nat

/-- One event on an item.  A response or rejection needs a request that is not answered yet. -/
def ItemState.step (s : ItemState) : ItemEvent → ItemState
  | .click photo =>
    let c := clickOnDropdownBtn s.btn s.listItem photo
    match c.added with
    | some a =>
      { btn := c.btn
        listItem := getDataJSONLoadStart a.parent
        requests := s.requests ++ a.requests
        pending := s.pending + a.requests.length }
    | none => { s with btn := c.btn, listItem := c.listItem }
  | .loaded data photo =>
    if s.pending = 0 then s
    else
      let answered := getDataJSONLoad s.listItem
      match answered.thrown with
      | some _ => { s with listItem := answered.st, pending := s.pending - 1 }
      | none =>
        let params :=
          if s.listItem.classes.contains "list__albums-item" then photo else paramsAlbum
        { s with
          listItem := (createList data answered.st params false).parent
          pending := s.pending - 1 }
  | .failed =>
    if s.pending = 0 then s
    else { s with listItem := (errorLoad s.listItem).st, pending := s.pending - 1 }
  | .settled arr elem len =>
    { s with listItem := (waitAllPromises arr s.listItem elem false len).parent }

/-- A sequence of events on an item. -/
def ItemState.run (s : ItemState) (evs : List ItemEvent) : ItemState :=
  evs.foldl ItemState.step s

/-- An album item of the catalog as `createList` builds it with the album List: collapsed, with
a hidden info block and no list. -/
def freshAlbumItem (id : String) : ItemState :=
  { btn := ["dropdown-btn"]
    listItem :=
      { id := id
        classes := ["list__albums-item"]
        extraBlock := some { classes := ["extra-block", "_hidden"], preload := 0, msgs := [] }
        lists := [] }
    requests := []
    pending := 0 }

/-- The favourites tab after a failed load whose error block `emptyFavoriteTabs` has replaced
by the empty-favourites message: the tab is still marked `_added-msg`. -/
def staleErrorMark : Container :=
  (emptyFavoriteTabs (runLoadEvents [.loadStart, .errorLoad] favoriteTabBlock).st).st

/-- A user item whose albums are rendered, its own info block hidden and without `.preload`,
while the photos of its first album are being loaded. -/
def userItemAlbumLoading : Container :=
  { id := "userId=1"
    classes := ["list__users-item", "_active", "_added-list"]
    extraBlock := some { classes := ["extra-block", "_hidden"], preload := 0, msgs := [] }
    lists :=
      [{ classes := ["list__albums"]
         items :=
           [{ id := "albumId=1"
              classes := ["list__albums-item", "_active"]
              children :=
                [.itemTitle (.val (.str "quidem")) 1,
                 .extraBlock { classes := ["extra-block"], preload := 1, msgs := [] }] }] }] }

/-- A favourites tab without an info block, with one rendered photo list. -/
def favoriteTabNoBlock : Container :=
  { id := ""
    classes := ["tabs__block", "tabs__favorite"]
    extraBlock := none
    lists := [{ classes := ["list__photos"], items := [] }] }

/-- A decorator that appends, for every argument it is called with, a title holding that
argument to the `li`. -/
def probe (args : List Arg) (item : Item) : Res Item :=
  { st := { item with children := item.children ++ args.map (fun a => Node.itemTitle a 0) } }

/-- A List with the decorator `probe` registered without a field name. -/
def paramsProbe : ListClass :=
  (ListClass.new "photo").addFunction [{ func := probe, attr := none }]

/-- The titles `probe` appends when it is registered with the field name `attr`, or without
one, and called for the record `r`: one title per argument of the call. -/
def probeTitles (attr : Option String) (r : Record) : List Node :=
  match attr with
  | some a => [Node.itemTitle (Arg.val (r.get a)) 0, Node.itemTitle Arg.handle 0]
  | none => [Node.itemTitle Arg.handle 0]

/-! ## Descriptor objects by reference -/

/-- A property value of a descriptor object: a function of the script, by name, or a string. -/
inductive Field where
  | undefined
  | fn (name : String)
  | str (s : String)
  deriving DecidableEq, Repr

/-- An object: its own properties in the order of their creation. -/
abbrev Obj := List (String × Field)

/-- Property read `o[k]`; a missing property reads as `undefined`. -/
def Obj.get (o : Obj) (k : String) : Field :=
  match o.lookup k with
  | some v => v
  | none => .undefined

/-- Assignment `o[k] = v`. -/
def Obj.put : Obj → String → Field → Obj
  | [], k, v => [(k, v)]
  | (k0, v0) :: rest, k, v =>
    if k0 = k then (k0, v) :: rest else (k0, v0) :: Obj.put rest k v

/-- The keys enumerated by `for (let attr in o)`. -/
def Obj.keys (o : Obj) : List String :=
  o.map Prod.fst

/-- The objects created so far; a reference to an object is its position. -/
abbrev Heap := List Obj

/-- The object a reference points to. -/
def Heap.get (h : Heap) (ref : Nat) : Obj :=
  h.getD ref []

/-- Assignment `x[k] = v` through the reference `x`. -/
def Heap.put (h : Heap) (ref : Nat) (k : String) (v : Field) : Heap :=
  modifyAt (fun o => o.put k v) ref h

/-- The fields `funcs` and `funcsCount` of an instance of `List`, the entries of `funcs` being
references to objects. -/
structure ListRef where
  funcs : List (String × Nat)
  funcsCount : Nat
  deriving DecidableEq, Repr

/-- Assignment `this.funcs[key] = ref`. -/
def setFunc : List (String × Nat) → String → Nat → List (String × Nat)
  | [], k, v => [(k, v)]
  | (k0, v0) :: rest, k, v =>
    if k0 = k then (k0, v) :: rest else (k0, v0) :: setFunc rest k v

/-- The inner loop of `addFunction`, `for (let attr in arguments[i])
this.funcs[key][attr] = arguments[i][attr]`, over the keys that are left. -/
def copyFields (target source : Nat) : List String → Heap → Heap
  | [], h => h
  | attr :: rest, h =>
    copyFields target source rest (h.put target attr ((h.get source).get attr))

/-- One round of the outer loop of `addFunction` with objects by reference: the counter is
incremented, a new object `{}` is stored under the key `f<funcsCount>`, and the properties of
the argument are assigned to it one by one. -/
def addFunctionRef1 (st : Heap × ListRef) (arg : Nat) : Heap × ListRef :=
  let n := st.2.funcsCount + 1
  let key := "f" ++ Nat.repr n
  let target := st.1.length
  let h1 : Heap := st.1 ++ [[]]
  (copyFields target arg (h1.get arg).keys h1,
   { funcs := setFunc st.2.funcs key target, funcsCount := n })

/-- Method `addFunction(...funcObjs)` with objects by reference. -/
def addFunctionRef (st : Heap × ListRef) (args : List Nat) : Heap × ListRef :=
  args.foldl addFunctionRef1 st

/-- The decorators of a List as they are read at the time of a call: key, `func`, `attr`. -/
def ListRef.decorators (self : ListRef) (h : Heap) : List (String × Field × Field) :=
  self.funcs.map (fun kr => (kr.1, (h.get kr.2).get "func", (h.get kr.2).get "attr"))

/-- The objects of the script after its set-up, and the three Lists. -/
structure Script where
  heap : Heap
  user : ListRef
  album : ListRef
  photo : ListRef

/-- The descriptors `f1`, `f2`, `f3` as the object literals create them, at the references
0, 1 and 2. -/
def descriptors : Heap :=
  [[("func", .fn "createItemTitle"), ("attr", .str "name")],
   [("func", .fn "addThumbnailPhoto"), ("attr", .str "thumbnailUrl")],
   [("func", .fn "createSimpleTitle"), ("attr", .str "title")]]

/-- The set-up of the module as far as descriptors go: `paramsUser.addFunction(f1);
f1.attr = "title"; paramsAlbum.addFunction(f1); paramsPhoto.addFunction(f2, f3)`. -/
def moduleSetup : Script :=
  let user := addFunctionRef (descriptors, { funcs := [], funcsCount := 0 }) [0]
  let h1 := user.1.put 0 "attr" (.str "title")
  let album := addFunctionRef (h1, { funcs := [], funcsCount := 0 }) [0]
  let photo := addFunctionRef (album.1, { funcs := [], funcsCount := 0 }) [1, 2]
  { heap := photo.1, user := user.2, album := album.2, photo := photo.2 }

/-! ## Regular states of the load indicator -/

/-- The load indicator of the container is in a state that load starts and failures alone lead
to: the container has an info block of its own with at most one `.preload`, no item of its
lists has a `.preload`, and the info block holds no message block when the container is not
marked `_added-msg` and one error message block when it is. -/
def Container.indicatorRegular (c : Container) : Prop :=
  ∃ b, c.extraBlock = some b ∧ c.lists.any (UList.hasBlock ExtraBlock.hasPreload) = false ∧
    b.preload ≤ 1 ∧
    ((c.classes.contains "_added-msg" = false ∧ b.msgs = []) ∨
      (c.classes.contains "_added-msg" = true ∧ ∃ m, b.msgs = [m] ∧ m.isError = true))

/-- The info block of the container holds no `.preload` and exactly one message block, an
error message block that is not hidden. -/
def Container.showsOneError (c : Container) : Prop :=
  ∃ b m, c.extraBlock = some b ∧ b.preload = 0 ∧ b.msgs = [m] ∧ m.isError = true ∧
    m.classes.contains "_hidden" = false

/-! # Theorems -/

/-- C1, evaluated on the store holding the photo 37: `addSomeListId` keeps the last character
of the identifier only, so `createUrlSomeListId` returns `id=7&` and not `id=37&`; with the
one-digit ids 3 and 7 the result is `id=3&id=7&`. -/
theorem createUrlSomeListId_keeps_last_digit :
    (paramsPhoto.addSomeListId ["photoId=37"]).someListId = [("photoId=37", "7")] ∧
    (paramsPhoto.addSomeListId ["photoId=37"]).createUrlSomeListId = "id=7&" ∧
    (paramsPhoto.addSomeListId ["photoId=37"]).createUrlSomeListId ≠ "id=37&" ∧
    (paramsPhoto.addSomeListId ["photoId=3", "photoId=7"]).createUrlSomeListId = "id=3&id=7&" := by
  decide

/-- C3, evaluated: after adding the identifier `photoId=1` twice to a new List the store holds
one identifier while `getSizeSomeListId` returns 2, and after removing an identifier that is
not stored from a new List it returns -1 for the empty store. -/
theorem getSizeSomeListId_counts_calls :
    (((ListClass.new "photo").addSomeListId ["photoId=1"]).addSomeListId
      ["photoId=1"]).someListId.keys = ["photoId=1"] ∧
    (((ListClass.new "photo").addSomeListId ["photoId=1"]).addSomeListId
      ["photoId=1"]).getSizeSomeListId = 2 ∧
    ((ListClass.new "photo").removeSomeListId ["photoId=1"]).someListId.keys = [] ∧
    ((ListClass.new "photo").removeSomeListId ["photoId=1"]).getSizeSomeListId = -1 := by
  decide

/-- C6, evaluated on two renders with the photo List: the second render, of one item, hands
two signals to the aggregate function, the first of them belonging to the item of the first
render; when that earlier thumbnail fails and the own one loads, the second container gets
`errorLoad` and its list is not revealed. -/
theorem createList_second_render_keeps_old_signals :
    (secondRender.parent.lists.map (fun l => l.items.map Item.id)) = [["photoId=2"]] ∧
    (secondRender.call.map (fun c => c.arr.map Promise.owner)) =
      some ["photoId=1", "photoId=2"] ∧
    (secondRender.call.map
      (fun c => (c.settle firstThumbnailFails secondRender.parent).ranCatch)) = some true ∧
    (secondRender.call.map
      (fun c => (c.settle firstThumbnailFails secondRender.parent).parent.lists.map
        UList.classes)) = some [["list__photos", "_hidden"]] := by
  decide

/-- C9, evaluated: after `addSomeListId("photoId=1")` and `removeSomeListId("photoId=2")` on
the photo List the identifier `photoId=1` is stored and the counter is 0, and the item
rendered for the photo 1 into a catalog container is not marked active. -/
theorem createList_active_needs_counter :
    driftedPhotoList.someListId.has "photoId=1" = true ∧
    driftedPhotoList.getSizeSomeListId = 0 ∧
    (createList (.array [photoRecord 1]) (albumItem "albumId=1") driftedPhotoList
      false).parent.lists.map (fun l => l.items.map (fun it => (it.id, it.classes))) =
      [[("photoId=1", ["list__photos-item", "photo"])]] := by
  decide

/-- C10, evaluated on the item `createList` renders for the photo 5: for the favourites-tab
item, whose identifier is `fav_photoId=5`, `showPopupImg` requests `urlPhotos + "?id=oId=5"`;
for the catalog item `photoId=5` it requests `urlPhotos + "?id=5"`. -/
theorem showPopupImg_favorite_item_url :
    (createList (.array [photoRecord 5]) favoriteTabBlock
      (paramsPhoto.addSomeListId ["photoId=5"]) true).parent.lists.map
      (fun l => l.items.map (fun it => (it.id,
        (showPopupImg it { classes := [], bodyPaddingRight := "", bodyOverflow := "" } 0 0).2))) =
      [[("fav_photoId=5", "https://json.medrating.org/photos?id=oId=5")]] ∧
    (createList (.array [photoRecord 5]) (albumItem "albumId=1") paramsPhoto
      false).parent.lists.map
      (fun l => l.items.map (fun it => (it.id,
        (showPopupImg it { classes := [], bodyPaddingRight := "", bodyOverflow := "" } 0 0).2))) =
      [[("photoId=5", "https://json.medrating.org/photos?id=5")]] := by
  decide

/-! ## Lemmas on the DOM queries -/

theorem modifyFirst_map_eq {α β : Type} (g : α → β) (p : α → Bool) (f : α → α)
    (h : ∀ x, g (f x) = g x) (l : List α) : (modifyFirst p f l).map g = l.map g := by
  induction l with
  | nil => rfl
  | cons x xs ih =>
    by_cases hx : p x = true
    · simp [modifyFirst, hx, h]
    · simp [modifyFirst, hx, ih]

theorem modifyAt_map_eq {α β : Type} (g : α → β) (f : α → α)
    (h : ∀ x, g (f x) = g x) (i : Nat) (l : List α) : (modifyAt f i l).map g = l.map g := by
  induction l generalizing i with
  | nil => cases i <;> rfl
  | cons x xs ih =>
    cases i with
    | zero => simp [modifyAt, h]
    | succ j => simp [modifyAt, ih]

theorem modifyFirstBlock_list_classes (p : ExtraBlock → Bool) (f : ExtraBlock → ExtraBlock)
    (c : Container) :
    (c.modifyFirstBlock p f).lists.map UList.classes = c.lists.map UList.classes := by
  have inner : (modifyFirst (UList.hasBlock p) (UList.modifyFirstBlock p f) c.lists).map
      UList.classes = c.lists.map UList.classes :=
    modifyFirst_map_eq UList.classes (UList.hasBlock p) (UList.modifyFirstBlock p f)
      (fun _ => rfl) c.lists
  unfold Container.modifyFirstBlock
  cases c.extraBlock with
  | none => simpa using inner
  | some b => by_cases hb : p b = true <;> simp [hb, inner]

theorem errorLoadPreload_list_classes (parent : Container) :
    (errorLoadPreload parent).st.lists.map UList.classes = parent.lists.map UList.classes := by
  unfold errorLoadPreload
  split_ifs
  · split
    · split_ifs <;> simp [modifyFirstBlock_list_classes]
    · rfl
  · rfl

theorem errorLoadMsg_list_classes (parent : Container) :
    (errorLoadMsg parent).st.lists.map UList.classes = parent.lists.map UList.classes := by
  unfold errorLoadMsg
  split_ifs <;> simp [modifyFirstBlock_list_classes]

theorem errorLoad_list_classes (parent : Container) :
    (errorLoad parent).st.lists.map UList.classes = parent.lists.map UList.classes := by
  unfold errorLoad
  simp only
  split
  · exact errorLoadPreload_list_classes parent
  · rw [errorLoadMsg_list_classes, errorLoadPreload_list_classes]

theorem hasBlock_anyBlock_own (c : Container) (b : ExtraBlock) (h : c.extraBlock = some b) :
    c.hasBlock anyBlock = true := by
  simp [Container.hasBlock, h, anyBlock]

theorem modifyFirstBlock_anyBlock_own (c : Container) (b : ExtraBlock)
    (f : ExtraBlock → ExtraBlock) (h : c.extraBlock = some b) :
    c.modifyFirstBlock anyBlock f = { c with extraBlock := some (f b) } := by
  simp [Container.modifyFirstBlock, h, anyBlock]

theorem firstBlock_anyBlock_own (c : Container) (b : ExtraBlock) (h : c.extraBlock = some b) :
    c.firstBlock anyBlock = some b := by
  simp [Container.firstBlock, h, anyBlock]

/-! ## The aggregate barrier (C7) -/

theorem Promise_all_failure (arr : List Outcome) (h : Outcome.failure ∈ arr) :
    Promise_all arr = Outcome.failure := by
  simp [Promise_all, h]

theorem Promise_all_success_iff (arr : List Outcome) :
    Promise_all arr = Outcome.success ↔ ∀ o ∈ arr, o = Outcome.success := by
  unfold Promise_all
  constructor
  · intro h o ho
    split_ifs at h with h1 h2
    cases o with
    | success => rfl
    | failure => exact absurd (by simpa using ho) h1
    | pending => exact absurd (by simpa using ho) h2
  · intro h
    have h1 : Outcome.failure ∉ arr := fun hc => by cases h _ hc
    have h2 : Outcome.pending ∉ arr := fun hc => by cases h _ hc
    simp [h1, h2]

theorem waitAllPromises_ranThen (arr : List Outcome) (parent : Container) (elem : Nat)
    (useListId : Bool) (len : Int)
    (h : (waitAllPromises arr parent elem useListId len).ranThen = true) :
    Promise_all arr = Outcome.success := by
  unfold waitAllPromises at h
  cases hp : Promise_all arr with
  | success => rfl
  | failure => simp [hp] at h
  | pending => simp [hp] at h

/-- C7: the all-or-nothing barrier.  When at least one signal of `arr` fails, only the `catch`
callback runs: the container is the one `errorLoad` produces and the class lists of its lists
are unchanged, so a hidden list stays hidden.  The `then` callback runs only if every signal
succeeds.  When every signal succeeds and `useListId` is false, the `then` callback alone runs:
the info block of the container gets the class `_hidden` and loses a `.preload`, and the list
`elem` loses the class `_hidden`.  The signals `[success, failure]` give the error branch. -/
theorem waitAllPromises_all_or_nothing (arr : List Outcome) (parent : Container) (elem : Nat)
    (useListId : Bool) (len : Int) :
    (Outcome.failure ∈ arr →
      (waitAllPromises arr parent elem useListId len).ranThen = false ∧
      (waitAllPromises arr parent elem useListId len).ranCatch = true ∧
      (waitAllPromises arr parent elem useListId len).parent = (errorLoad parent).st ∧
      (waitAllPromises arr parent elem useListId len).parent.lists.map UList.classes =
        parent.lists.map UList.classes) ∧
    ((waitAllPromises arr parent elem useListId len).ranThen = true →
      ∀ o ∈ arr, o = Outcome.success) ∧
    ((∀ o ∈ arr, o = Outcome.success) → useListId = false →
      ∀ eb, parent.extraBlock = some eb →
      (waitAllPromises arr parent elem useListId len).ranThen = true ∧
      (waitAllPromises arr parent elem useListId len).ranCatch = false ∧
      (waitAllPromises arr parent elem useListId len).parent =
        { parent with
          extraBlock := some
            { eb with classes := classAdd eb.classes "_hidden", preload := eb.preload - 1 }
          lists := modifyAt (fun l => { l with classes := classRemove l.classes "_hidden" })
            elem parent.lists }) ∧
    ((waitAllPromises [Outcome.success, Outcome.failure] parent elem useListId len).ranThen = false ∧
      (waitAllPromises [Outcome.success, Outcome.failure] parent elem useListId len).ranCatch = true ∧
      (waitAllPromises [Outcome.success, Outcome.failure] parent elem useListId len).parent =
        (errorLoad parent).st) := by
  have fail : ∀ a : List Outcome, Outcome.failure ∈ a →
      (waitAllPromises a parent elem useListId len).ranThen = false ∧
      (waitAllPromises a parent elem useListId len).ranCatch = true ∧
      (waitAllPromises a parent elem useListId len).parent = (errorLoad parent).st := by
    intro a ha
    simp [waitAllPromises, Promise_all_failure a ha]
  refine ⟨?_, ?_, ?_, ?_⟩
  · intro h
    obtain ⟨h1, h2, h3⟩ := fail arr h
    exact ⟨h1, h2, h3, by rw [h3]; exact errorLoad_list_classes parent⟩
  · intro h
    exact (Promise_all_success_iff arr).1 (waitAllPromises_ranThen arr parent elem useListId len h)
  · intro h hu eb heb
    have hs := (Promise_all_success_iff arr).2 h
    subst hu
    simp [waitAllPromises, hs, waitAllPromisesThen, hasBlock_anyBlock_own parent eb heb,
      modifyFirstBlock_anyBlock_own parent eb _ heb]
  · exact fail _ (by simp)

/-! ## Items of the photo List (C8, C9) -/

theorem photoState_funcs (store : Store) (len : Int) (arr : List Promise) :
    (photoState store len arr).funcs = [("f1", f2), ("f2", f3)] := rfl

theorem photoState_id (store : Store) (len : Int) (arr : List Promise) :
    (photoState store len arr).id = "photoId" := by
  show "photo" ++ "Id" = "photoId"
  decide

theorem photoState_listName (store : Store) (len : Int) (arr : List Promise) :
    (photoState store len arr).listName = "list__photos" := by
  show "list__" ++ "photo" ++ "s" = "list__photos"
  decide

theorem photoState_classItem (store : Store) (len : Int) (arr : List Promise) :
    (photoState store len arr).classItem = ["photo"] := rfl

theorem photoState_classList (store : Store) (len : Int) (arr : List Promise) :
    (photoState store len arr).classList = ["_hidden"] := rfl

theorem photoState_extraBlock (store : Store) (len : Int) (arr : List Promise) :
    (photoState store len arr).extraBlock = false := rfl

theorem photoState_someListId (store : Store) (len : Int) (arr : List Promise) :
    (photoState store len arr).someListId = store := rfl

theorem photoState_getSize (store : Store) (len : Int) (arr : List Promise) :
    (photoState store len arr).getSizeSomeListId = len := rfl

theorem photo_item_classes :
    classAdd (classAdd [] "list__photos-item") "photo" = ["list__photos-item", "photo"] := by
  decide

theorem photo_id_string (x : String) : "photoId" ++ "=" ++ x = "photoId=" ++ x := by
  apply String.ext
  simp

theorem favorite_id_string (x : String) :
    favoritePrefix ++ ("photoId=" ++ x) = "fav_photoId=" ++ x := by
  apply String.ext
  simp [favoritePrefix]

theorem createItem_photo_favorite (store : Store) (len : Int) (arr : List Promise)
    (r : Record) :
    createItem (photoState store len arr) true r =
      { st := photoItem ("fav_photoId=" ++ (r.get "id").toStr) true r } := by
  have hc : classAdd ["list__photos-item", "photo"] "_active" =
      ["list__photos-item", "photo", "_active"] := by decide
  have hc2 : classAdd ["list__photos-item", "photo", "_active"] "_active" =
      ["list__photos-item", "photo", "_active"] := by decide
  simp [createItem, applyFuncs, photoState_funcs, f2, f3, addThumbnailPhoto, createSimpleTitle,
    photoState_id, photoState_listName, photoState_classItem, photo_item_classes,
    photo_id_string, favorite_id_string, hc, hc2, photoItem]

theorem createItem_photo_catalog (store : Store) (len : Int) (arr : List Promise)
    (r : Record) :
    createItem (photoState store len arr) false r =
      { st := photoItem ("photoId=" ++ (r.get "id").toStr)
          (decide (0 < len) && store.has ("photoId=" ++ (r.get "id").toStr)) r } := by
  have hc : classAdd ["list__photos-item", "photo"] "_active" =
      ["list__photos-item", "photo", "_active"] := by decide
  by_cases h1 : 0 < len <;>
    by_cases h2 : store.has ("photoId=" ++ (r.get "id").toStr) = true <;>
    simp [createItem, applyFuncs, photoState_funcs, f2, f3, addThumbnailPhoto, createSimpleTitle,
      photoState_id, photoState_listName, photoState_classItem, photo_item_classes,
      photo_id_string, hc, photoItem, photoState_getSize, photoState_someListId, h1, h2]

theorem createListLoop_no_throw (params : ListClass) (fav : Bool) (lp : PromiseCfg)
    (hp : params.promise = some lp) (hb : params.extraBlock = false)
    (hok : ∀ r, (createItem params fav r).thrown = none) (rs : List Record) :
    ∀ (items : List Item) (a : List Promise),
      createListLoop params fav rs { items := items, arr := a } =
        { items := items ++ rs.map (fun r => (createItem params fav r).st)
          arr := a ++ rs.map (fun r => lp.funcItem (createItem params fav r).st) } := by
  induction rs with
  | nil => intro items a; simp [createListLoop]
  | cons r rs ih =>
    intro items a
    simp [createListLoop, hok r, hp, hb, ih]

theorem classAdd_contains (cls : List String) (c x : String) (h : x ≠ c) :
    (classAdd cls c).contains x = cls.contains x := by
  unfold classAdd
  split_ifs
  · rfl
  · simp [h]

theorem modifyFirst_append_last {α : Type} (p : α → Bool) (f : α → α) (l : List α) (x : α)
    (hx : p x = false) : modifyFirst p f (l ++ [x]) = modifyFirst p f l ++ [x] := by
  induction l with
  | nil => simp [modifyFirst, hx]
  | cons y ys ih =>
    by_cases hy : p y = true
    · simp [modifyFirst, hy]
    · simp [modifyFirst, hy, ih]

theorem modifyFirstBlock_lists_append (p : ExtraBlock → Bool) (f : ExtraBlock → ExtraBlock)
    (c : Container) (cls : List String) (x : UList) (hx : UList.hasBlock p x = false) :
    ({ c with classes := cls, lists := c.lists ++ [x] } : Container).modifyFirstBlock p f =
      { c.modifyFirstBlock p f with
        classes := cls, lists := (c.modifyFirstBlock p f).lists ++ [x] } := by
  unfold Container.modifyFirstBlock
  cases hc : c.extraBlock with
  | none => simp [modifyFirst_append_last _ _ _ _ hx]
  | some b => by_cases hb : p b = true <;> simp [hb, modifyFirst_append_last _ _ _ _ hx]

theorem photoItem_hasBlock (p : ExtraBlock → Bool) (id : String) (a : Bool) (r : Record) :
    (photoItem id a r).hasBlock p = false := by
  simp [photoItem, Item.hasBlock]

theorem photoState_promise (store : Store) (len : Int) (arr : List Promise) :
    (photoState store len arr).promise =
      some { arr := arr, funcItem := imgLoaded, funcPromise := Aggregate.waitAllPromises } := rfl

theorem list_classes_photo :
    List.foldl classAdd (classAdd [] "list__photos") ["_hidden"] = ["list__photos", "_hidden"] := by
  decide

theorem createItem_photo_thrown (store : Store) (len : Int) (arr : List Promise) (fav : Bool)
    (r : Record) : (createItem (photoState store len arr) fav r).thrown = none := by
  cases fav
  · rw [createItem_photo_catalog]
  · rw [createItem_photo_favorite]

theorem createItem_photo_hasBlock (store : Store) (len : Int) (arr : List Promise) (fav : Bool)
    (p : ExtraBlock → Bool) (r : Record) :
    (createItem (photoState store len arr) fav r).st.hasBlock p = false := by
  cases fav
  · rw [createItem_photo_catalog]; exact photoItem_hasBlock _ _ _ _
  · rw [createItem_photo_favorite]; exact photoItem_hasBlock _ _ _ _

/-- What `createList` does with an array of records and the photo List. -/
theorem createList_photo_eq (rs : List Record) (parent : Container) (store : Store) (len : Int)
    (arr : List Promise) (u : Bool) :
    createList (.array rs) parent (photoState store len arr) u =
      createListFinish
        { parent with
          classes := classAdd parent.classes "_added-list"
          lists := parent.lists ++
            [{ classes := ["list__photos", "_hidden"]
               items := rs.map (fun r => (createItem (photoState store len arr)
                 (parent.classes.contains "tabs__favorite") r).st) }] }
        (photoState store len (arr ++ rs.map (fun r => imgLoaded (createItem
          (photoState store len arr) (parent.classes.contains "tabs__favorite") r).st)))
        parent.lists.length u := by
  have hloop := createListLoop_no_throw (photoState store len arr)
    (parent.classes.contains "tabs__favorite") _ (photoState_promise store len arr)
    (photoState_extraBlock store len arr)
    (createItem_photo_thrown store len arr (parent.classes.contains "tabs__favorite")) rs [] arr
  have hfav : (classAdd parent.classes "_added-list").contains "tabs__favorite" =
      parent.classes.contains "tabs__favorite" := classAdd_contains _ _ _ (by decide)
  unfold createList
  simp only [hfav, photoState_promise, ListData.records, hloop, photoState_listName, photoState_classList,
    list_classes_photo]
  rw [if_neg (by simp)]
  simp only [List.nil_append]
  rfl

/-- What `createList` does with the empty object and the photo List: an empty list. -/
theorem createList_photo_empty (parent : Container) (store : Store) (len : Int)
    (arr : List Promise) (u : Bool) :
    createList ListData.emptyObject parent (photoState store len arr) u =
      createListFinish
        { parent with
          classes := classAdd parent.classes "_added-list"
          lists := parent.lists ++ [{ classes := ["list__photos", "_hidden"], items := [] }] }
        (photoState store len arr) parent.lists.length u := by
  unfold createList
  simp only [photoState_promise, ListData.records, createListLoop, photoState_listName,
    photoState_classList, list_classes_photo]
  rw [if_neg (by simp)]
  rfl

theorem createListFinish_photo_lists (parent : Container) (cls : List String) (x : UList)
    (hx : UList.hasBlock anyBlock x = false) (store : Store) (len : Int) (arr : List Promise)
    (elem : Nat) (u : Bool) :
    ∃ front : List UList, front.length = parent.lists.length ∧
      (createListFinish { parent with classes := cls, lists := parent.lists ++ [x] }
        (photoState store len arr) elem u).parent.lists = front ++ [x] := by
  unfold createListFinish
  simp only [photoState_promise]
  split_ifs
  · rw [modifyFirstBlock_lists_append _ _ _ _ _ hx]
    refine ⟨(parent.modifyFirstBlock anyBlock _).lists, ?_, rfl⟩
    have := congrArg List.length (modifyFirstBlock_list_classes anyBlock
      (fun b => { b with classes := classRemove b.classes "_hidden" }) parent)
    simpa using this
  · exact ⟨parent.lists, rfl, rfl⟩

/-- The list the photo List renders into a catalog container: the item of a record is
marked active exactly when the counter is positive and its identifier is stored. -/
theorem createList_catalog_items (rs : List Record) (parent : Container) (store : Store)
    (len : Int) (arr : List Promise) (u : Bool)
    (hcat : parent.classes.contains "tabs__favorite" = false) :
    ∃ front : List UList, front.length = parent.lists.length ∧
      (createList (.array rs) parent (photoState store len arr) u).parent.lists =
        front ++
          [{ classes := ["list__photos", "_hidden"]
             items := rs.map (fun r => photoItem ("photoId=" ++ (r.get "id").toStr)
               (decide (0 < len) && store.has ("photoId=" ++ (r.get "id").toStr)) r) }] := by
  rw [createList_photo_eq, hcat]
  simp only [createItem_photo_catalog]
  apply createListFinish_photo_lists
  simp [UList.hasBlock, photoItem_hasBlock]

/-- C8: the photo List rendered into the favourites tab.  The new list is the last list of the
tab; it has one item per record, in order; the item of a record with id `n` has the identifier
`"fav_" + "photoId=" + n` and carries the class `_active`. -/
theorem createList_favorite_tab_items (rs : List Record) (parent : Container) (store : Store)
    (len : Int) (arr : List Promise) (u : Bool)
    (hfav : parent.classes.contains "tabs__favorite" = true) :
    ∃ (front : List UList) (list : UList),
      (createList (.array rs) parent (photoState store len arr) u).parent.lists = front ++ [list] ∧
      front.length = parent.lists.length ∧
      list.items.length = rs.length ∧
      list.items.map Item.id =
        rs.map (fun r => favoritePrefix ++ ("photoId=" ++ (r.get "id").toStr)) ∧
      (∀ it ∈ list.items, "_active" ∈ it.classes) ∧
      (∀ r n, rs = [r] → r.get "id" = Val.num n →
        list.items.map (fun it => (it.id, it.classes)) =
          [("fav_photoId=" ++ Nat.repr n, ["list__photos-item", "photo", "_active"])]) := by
  have h : ∃ front : List UList, front.length = parent.lists.length ∧
      (createList (.array rs) parent (photoState store len arr) u).parent.lists =
        front ++
          [{ classes := ["list__photos", "_hidden"]
             items := rs.map (fun r => photoItem ("fav_photoId=" ++ (r.get "id").toStr) true r) }] := by
    rw [createList_photo_eq, hfav]
    simp only [createItem_photo_favorite]
    apply createListFinish_photo_lists
    simp [UList.hasBlock, photoItem_hasBlock]
  obtain ⟨front, hlen, hlists⟩ := h
  refine ⟨front, _, hlists, hlen, ?_, ?_, ?_, ?_⟩
  · simp
  · simp [photoItem, favorite_id_string]
  · intro it hit
    simp only [List.mem_map] at hit
    obtain ⟨r, _, rfl⟩ := hit
    simp [photoItem]
  · intro r n hr hn
    subst hr
    simp [photoItem, hn, Val.toStr]

/-- C8 at one record with id 5 in the favourites tab block. -/
theorem createList_favorite_tab_items_witness :
    ∃ (front : List UList) (list : UList),
      (createList (.array [photoRecord 5]) favoriteTabBlock (photoState [("photoId=5", "5")] 1 [])
        true).parent.lists = front ++ [list] ∧
      front.length = favoriteTabBlock.lists.length ∧
      list.items.length = [photoRecord 5].length ∧
      list.items.map Item.id =
        [photoRecord 5].map (fun r => favoritePrefix ++ ("photoId=" ++ (r.get "id").toStr)) ∧
      (∀ it ∈ list.items, "_active" ∈ it.classes) ∧
      (∀ r n, [photoRecord 5] = [r] → r.get "id" = Val.num n →
        list.items.map (fun it => (it.id, it.classes)) =
          [("fav_photoId=" ++ Nat.repr n, ["list__photos-item", "photo", "_active"])]) :=
  createList_favorite_tab_items [photoRecord 5] favoriteTabBlock [("photoId=5", "5")] 1 [] true
    (by decide)

/-! ## The empty favourites tab (C5) -/

theorem classRemove_not_mem (cls : List String) (c : String) : c ∉ classRemove cls c := by
  simp [classRemove]

theorem onFirstList_length (cls : String) (f : List String → List String)
    (c : Container) : (c.onFirstList cls f).lists.length = c.lists.length := by
  have := congrArg List.length (modifyFirst_map_eq (fun _ : UList => ()) (UList.hasClass cls)
    (fun l => { l with classes := f l.classes }) (fun _ => rfl) c.lists)
  simpa [Container.onFirstList] using this

/-- With an info block of its own, `emptyFavoriteTabs` completes: the first message block is
replaced by the empty-favourites message and the info block loses the class `_hidden`. -/
theorem emptyFavoriteTabs_own (c : Container) (b : ExtraBlock) (h : c.extraBlock = some b) :
    emptyFavoriteTabs c =
      { st := { c.onFirstList "list__photos" (fun cls => classAdd cls "_hidden") with
          extraBlock := some
            { classes := classRemove b.classes "_hidden"
              preload := b.preload
              msgs := b.msgs.drop 1 ++ [emptyMsg] } } } := by
  have h1 : (c.onFirstList "list__photos" (fun cls => classAdd cls "_hidden")).extraBlock =
      some b := h
  unfold emptyFavoriteTabs
  simp only [hasBlock_anyBlock_own _ b h1, modifyFirstBlock_anyBlock_own _ b _ h1, if_true]

theorem emptyFavoriteTabs_shows (c : Container) (b : ExtraBlock) (h : c.extraBlock = some b) :
    (emptyFavoriteTabs c).thrown = none ∧ (emptyFavoriteTabs c).st.showsEmptyMsg ∧
      (emptyFavoriteTabs c).st.classes = c.classes := by
  rw [emptyFavoriteTabs_own c b h]
  refine ⟨rfl, ⟨_, rfl, classRemove_not_mem _ _, by simp⟩, rfl⟩

theorem errorLoadPreload_own (c : Container) (b : ExtraBlock) (h : c.extraBlock = some b) :
    ∃ k, (errorLoadPreload c).st = { c with extraBlock := some { b with preload := k } } := by
  unfold errorLoadPreload
  rw [firstBlock_anyBlock_own c b h]
  have same : c = { c with extraBlock := some { b with preload := b.preload } } := by
    cases c
    simp_all
  by_cases h1 : c.hasBlock ExtraBlock.hasPreload = true
  · by_cases h2 : b.hasPreload = true
    · refine ⟨b.preload - 1, ?_⟩
      simp only [h1, h2, if_true]
      exact modifyFirstBlock_anyBlock_own c b _ h
    · refine ⟨b.preload, ?_⟩
      simp only [h1, h2, if_true]
      exact same
  · refine ⟨b.preload, ?_⟩
    simp only [h1]
    exact same

theorem errorLoadMsg_shows (c : Container) (h : c.showsEmptyMsg) :
    (errorLoadMsg c).st.showsEmptyMsg := by
  obtain ⟨b, hb, hcls, hmsg⟩ := h
  have hm : ExtraBlock.hasMsg b = true := by
    cases hms : b.msgs with
    | nil => rw [hms] at hmsg; cases hmsg
    | cons m ms => simp [ExtraBlock.hasMsg, hms]
  unfold errorLoadMsg
  split_ifs with h1 h2 h3
  · have : c.modifyFirstBlock ExtraBlock.hasMsg (fun b =>
        { b with msgs := match b.msgs with
            | [] => []
            | m :: ms => { m with classes := classRemove m.classes "_hidden" } :: ms }) =
        { c with extraBlock := some { b with msgs := match b.msgs with
            | [] => []
            | m :: ms => { m with classes := classRemove m.classes "_hidden" } :: ms } } := by
      simp [Container.modifyFirstBlock, hb, hm]
    rw [this]
    refine ⟨_, rfl, hcls, ?_⟩
    cases hms : b.msgs with
    | nil => rw [hms] at hmsg; cases hmsg
    | cons m ms =>
      rw [hms] at hmsg
      simp only
      rcases List.mem_cons.1 hmsg with rfl | hin
      · exact List.mem_cons.2 (Or.inl (by decide))
      · exact List.mem_cons.2 (Or.inr hin)
  · exact ⟨b, hb, hcls, hmsg⟩
  · rw [modifyFirstBlock_anyBlock_own c b _ hb]
    exact ⟨_, rfl, hcls, by simp [hmsg]⟩
  · exact ⟨b, hb, hcls, hmsg⟩

theorem errorLoad_shows (c : Container) (h : c.showsEmptyMsg) :
    (errorLoad c).st.showsEmptyMsg := by
  obtain ⟨b, hb, hcls, hmsg⟩ := h
  obtain ⟨k, hk⟩ := errorLoadPreload_own c b hb
  have hs : (errorLoadPreload c).st.showsEmptyMsg := by
    rw [hk]
    exact ⟨_, rfl, hcls, hmsg⟩
  unfold errorLoad
  simp only
  split
  · exact hs
  · exact errorLoadMsg_shows _ hs

theorem createListFinish_photo_own (c : Container) (b : ExtraBlock) (h : c.extraBlock = some b)
    (store : Store) (len : Int) (arr : List Promise) (elem : Nat) (u : Bool) :
    createListFinish c (photoState store len arr) elem u =
      { parent := { c with extraBlock := some { b with classes := classRemove b.classes "_hidden" } }
        params := photoState store len arr
        call := some
          { func := Aggregate.waitAllPromises
            arr := arr
            elem := elem
            useListId := u
            someListIdLength := len } } := by
  unfold createListFinish
  simp only [photoState_promise, hasBlock_anyBlock_own c b h, modifyFirstBlock_anyBlock_own c b _ h,
    if_true, photoState_getSize]

/-- The signals `createList` hands to the aggregate function for the photo List, into a
container with an info block of its own: the signals already in `List.promise.arr`, followed
by one signal for each item of this render. -/
theorem createList_photo_call (rs : List Record) (parent : Container) (b : ExtraBlock)
    (h : parent.extraBlock = some b) (store : Store) (len : Int) (arr : List Promise) (u : Bool) :
    (createList (.array rs) parent (photoState store len arr) u).call = some
      { func := Aggregate.waitAllPromises
        arr := arr ++ rs.map (fun r => imgLoaded (createItem (photoState store len arr)
          (parent.classes.contains "tabs__favorite") r).st)
        elem := parent.lists.length
        useListId := u
        someListIdLength := len } := by
  rw [createList_photo_eq, createListFinish_photo_own _ b (by exact h)]

theorem waitAllPromisesThen_favorite_shows (c : Container) (b : ExtraBlock)
    (h : c.extraBlock = some b) (hfav : c.classes.contains "tabs__favorite" = true) (elem : Nat) :
    (waitAllPromisesThen c elem true 0).thrown = none ∧
      (waitAllPromisesThen c elem true 0).st.showsEmptyMsg := by
  unfold waitAllPromisesThen
  simp only [hasBlock_anyBlock_own c b h, modifyFirstBlock_anyBlock_own c b _ h, if_true, hfav,
    and_self]
  have := emptyFavoriteTabs_shows
    { id := c.id, classes := c.classes
      extraBlock := some { classes := classAdd b.classes "_hidden", preload := b.preload - 1,
                           msgs := b.msgs }
      lists := modifyAt (fun l => { l with classes := classRemove l.classes "_hidden" }) elem
        c.lists } _ rfl
  exact ⟨this.1, this.2.1⟩

theorem waitAllPromises_favorite_shows (outs : List Outcome) (c : Container)
    (h : c.showsEmptyMsg) (hfav : c.classes.contains "tabs__favorite" = true) (elem : Nat) :
    (waitAllPromises outs c elem true 0).parent.showsEmptyMsg := by
  obtain ⟨b, hb, hcls, hmsg⟩ := h
  have hthen := waitAllPromisesThen_favorite_shows c b hb hfav elem
  unfold waitAllPromises
  cases Promise_all outs with
  | pending => exact ⟨b, hb, hcls, hmsg⟩
  | failure => exact errorLoad_shows c ⟨b, hb, hcls, hmsg⟩
  | success =>
    simp only [hthen.1]
    exact hthen.2

/-- C5: `addList` with `useListId = true` on the favourites tab, for the photo List with the
counter at 0 and a tab that has an info block.  No URL is handed to `getDataJSON`; nothing is
raised; the list appended to the tab has no item; the info block of the tab does not carry
`_hidden` and holds the empty-favourites message; and this is still so after the aggregate call
made by `createList` is settled, however the signals of `arr` end. -/
theorem addList_empty_favorites (url : String) (parent : Container) (eb : ExtraBlock)
    (store : Store) (arr : List Promise) (env : Promise → Outcome)
    (hfav : parent.classes.contains "tabs__favorite" = true)
    (heb : parent.extraBlock = some eb) :
    (addList url parent (photoState store 0 arr) true).requests = [] ∧
    (addList url parent (photoState store 0 arr) true).thrown = none ∧
    (∃ front : List UList, front.length = parent.lists.length ∧
      (addList url parent (photoState store 0 arr) true).parent.lists =
        front ++ [{ classes := ["list__photos", "_hidden"], items := [] }]) ∧
    (addList url parent (photoState store 0 arr) true).parent.showsEmptyMsg ∧
    (∃ call : AggregateCall,
      (addList url parent (photoState store 0 arr) true).call = some call ∧
      (call.settle env (addList url parent (photoState store 0 arr) true).parent).parent.showsEmptyMsg) := by
  have hadd : addList url parent (photoState store 0 arr) true =
      { parent :=
          { id := parent.id
            classes := classAdd parent.classes "_added-list"
            extraBlock := some
              { classes := classRemove (classRemove eb.classes "_hidden") "_hidden"
                preload := eb.preload
                msgs := eb.msgs.drop 1 ++ [emptyMsg] }
            lists := (parent.onFirstList "list__photos" (fun cls => classAdd cls "_hidden")).lists ++
              [{ classes := ["list__photos", "_hidden"], items := [] }] }
        params := photoState store 0 arr
        call := some
          { func := Aggregate.waitAllPromises
            arr := arr
            elem := (parent.onFirstList "list__photos" (fun cls => classAdd cls "_hidden")).lists.length
            useListId := true
            someListIdLength := 0 } } := by
    unfold addList
    simp only [photoState_getSize, hfav, if_true, emptyFavoriteTabs_own parent eb heb,
      createList_photo_empty]
    rw [createListFinish_photo_own _ _ rfl]
    rfl
  have hshow : (addList url parent (photoState store 0 arr) true).parent.showsEmptyMsg := by
    rw [hadd]
    exact ⟨_, rfl, classRemove_not_mem _ _, by simp⟩
  refine ⟨by rw [hadd], by rw [hadd], ?_, hshow, ?_⟩
  · rw [hadd]
    exact ⟨_, onFirstList_length _ _ _, rfl⟩
  · refine ⟨_, by rw [hadd], ?_⟩
    simp only [AggregateCall.settle]
    apply waitAllPromises_favorite_shows _ _ hshow
    rw [hadd]
    exact (classAdd_contains _ _ _ (by decide)).trans hfav

/-- C5 at the favourites tab block of the page, with an earlier signal that fails. -/
theorem addList_empty_favorites_witness :
    (addList urlPhotos favoriteTabBlock (photoState [] 0 [{ owner := "photoId=1", img := none }])
      true).requests = [] ∧
    (addList urlPhotos favoriteTabBlock (photoState [] 0 [{ owner := "photoId=1", img := none }])
      true).parent.showsEmptyMsg :=
  have h := addList_empty_favorites urlPhotos favoriteTabBlock
    { classes := ["extra-block", "_hidden"], preload := 0, msgs := [] } []
    [{ owner := "photoId=1", img := none }] (fun _ => Outcome.failure) (by decide) rfl
  ⟨h.1, h.2.2.2.1⟩

/-! ## Persistence round trip (C2) -/

theorem hexVal_digitChar : ∀ n, n < 16 → hexVal (Nat.digitChar n) = some n := by
  decide

theorem readChar_escapeChar (c : Char) (tail : List Char) :
    readChar (escapeChar c ++ tail) = some (c, tail) := by
  have hu : ∀ e ch, e ≠ 'u' → unescape e = some ch →
      readChar (chBackslash :: e :: tail) = some (ch, tail) := by
    intro e ch h1 h2
    simp only [readChar, readEscape, h1, h2, if_true, if_false]
  unfold escapeChar
  split_ifs with h1 h2 h3 h4 h5 h6 h7 h8
  · subst h1; exact hu _ _ (by decide) (by decide)
  · subst h2; exact hu _ _ (by decide) (by decide)
  · subst h3; exact hu _ _ (by decide) (by decide)
  · subst h4; exact hu _ _ (by decide) (by decide)
  · subst h5; exact hu _ _ (by decide) (by decide)
  · subst h6; exact hu _ _ (by decide) (by decide)
  · subst h7; exact hu _ _ (by decide) (by decide)
  · have ha : c.toNat / 16 < 16 := by omega
    have hb : c.toNat % 16 < 16 := Nat.mod_lt _ (by decide)
    have hc : ((0 * 16 + 0) * 16 + c.toNat / 16) * 16 + c.toNat % 16 = c.toNat := by omega
    have h0 : hexVal '0' = some 0 := by decide
    simp only [List.cons_append, List.nil_append, readChar, readEscape, readHex4, if_true, h0,
      hexVal_digitChar _ ha, hexVal_digitChar _ hb, hc, Char.ofNat_toNat]
  · simp only [List.cons_append, List.nil_append, readChar, h7, h8, if_false]

theorem escapeChar_head (c : Char) (tail : List Char) :
    ∃ x t, escapeChar c ++ tail = x :: t ∧ x ≠ chQuote := by
  have hb : chBackslash ≠ chQuote := by decide
  unfold escapeChar
  split_ifs with h1 h2 h3 h4 h5 h6 h7 h8
  all_goals first
    | exact ⟨chBackslash, _, rfl, hb⟩
    | exact ⟨c, tail, rfl, h6⟩

theorem readString_escaped (s : List Char) (rest : List Char) :
    ∀ fuel, s.length < fuel →
      readString fuel (s.flatMap escapeChar ++ chQuote :: rest) = some (s, rest) := by
  induction s with
  | nil =>
    intro fuel hf
    obtain ⟨f, rfl⟩ : ∃ f, fuel = f + 1 := ⟨fuel - 1, by simp at hf; omega⟩
    simp [readString]
  | cons c cs ih =>
    intro fuel hf
    obtain ⟨f, rfl⟩ : ∃ f, fuel = f + 1 := ⟨fuel - 1, by omega⟩
    have hf2 : cs.length < f := by simpa using hf
    rw [List.flatMap_cons, List.append_assoc]
    obtain ⟨x, t, hxt, hx⟩ := escapeChar_head c (cs.flatMap escapeChar ++ chQuote :: rest)
    have hread := readChar_escapeChar c (cs.flatMap escapeChar ++ chQuote :: rest)
    rw [hxt] at hread ⊢
    rw [readString]
    simp only [hx, if_false, hread, ih f hf2]

theorem escapeChar_length (c : Char) : 1 ≤ (escapeChar c).length := by
  unfold escapeChar
  split_ifs <;> simp

theorem flatMap_escapeChar_length (s : List Char) : s.length ≤ (s.flatMap escapeChar).length := by
  induction s with
  | nil => simp
  | cons c cs ih =>
    have := escapeChar_length c
    simp only [List.flatMap_cons, List.length_append, List.length_cons]
    omega

theorem readMember_quoted (k v : String) (tail : List Char) :
    readMember (quoteJSONString k ++ chColon :: (quoteJSONString v ++ tail)) =
      some ((k, v), tail) := by
  have hk := readString_escaped k.data (chColon :: chQuote ::
    (v.data.flatMap escapeChar ++ chQuote :: tail))
    (k.data.flatMap escapeChar ++ chQuote :: chColon :: chQuote ::
      (v.data.flatMap escapeChar ++ chQuote :: tail)).length
    (by
      have := flatMap_escapeChar_length k.data
      simp only [List.length_append, List.length_cons]
      omega)
  have hv := readString_escaped v.data tail
    (v.data.flatMap escapeChar ++ chQuote :: tail).length
    (by
      have := flatMap_escapeChar_length v.data
      simp only [List.length_append, List.length_cons]
      omega)
  have shape : quoteJSONString k ++ chColon :: (quoteJSONString v ++ tail) =
      chQuote :: (k.data.flatMap escapeChar ++ chQuote :: chColon :: chQuote ::
        (v.data.flatMap escapeChar ++ chQuote :: tail)) := by
    simp [quoteJSONString]
  rw [shape]
  simp only [readMember, if_true, hk, and_self, hv]

theorem stringifyMembers_cons (kv : String × String) (rest : Store) :
    ∃ ys, stringifyMembers (kv :: rest) ++ [chClose] = chQuote :: ys := by
  obtain ⟨k, v⟩ := kv
  cases rest with
  | nil =>
    simp only [stringifyMembers, quoteJSONString, List.cons_append]
    exact ⟨_, rfl⟩
  | cons kv2 rest2 =>
    simp only [stringifyMembers, quoteJSONString, List.cons_append]
    exact ⟨_, rfl⟩

theorem readMembers_stringify (o : Store) (ho : o ≠ []) :
    ∀ (fuel : Nat) (acc : Store), o.length ≤ fuel →
      readMembers fuel (stringifyMembers o ++ [chClose]) acc =
        some (o.foldl (fun (a : Store) kv => Store.set a kv.1 kv.2) acc) := by
  induction o with
  | nil => exact absurd rfl ho
  | cons kv rest ih =>
    intro fuel acc hf
    obtain ⟨f, rfl⟩ : ∃ f, fuel = f + 1 := ⟨fuel - 1, by simp at hf; omega⟩
    obtain ⟨k, v⟩ := kv
    cases rest with
    | nil =>
      have shape : stringifyMembers [(k, v)] ++ [chClose] =
          quoteJSONString k ++ chColon :: (quoteJSONString v ++ [chClose]) := by
        simp [stringifyMembers]
      rw [shape, readMembers, readMember_quoted]
      simp
    | cons kv2 rest2 =>
      obtain ⟨ys, hys⟩ := stringifyMembers_cons kv2 rest2
      have shape : stringifyMembers ((k, v) :: kv2 :: rest2) ++ [chClose] =
          quoteJSONString k ++ chColon :: (quoteJSONString v ++ chComma :: chQuote :: ys) := by
        rw [← hys]
        simp [stringifyMembers]
      have hrec := ih (by simp) f (acc.set k v) (by simpa using hf)
      rw [hys] at hrec
      rw [shape, readMembers, readMember_quoted]
      simp only [if_true, hrec, List.foldl_cons]

theorem stringifyMembers_length (o : Store) : o.length ≤ (stringifyMembers o).length := by
  induction o with
  | nil => simp
  | cons kv rest ih =>
    obtain ⟨k, v⟩ := kv
    cases rest with
    | nil => simp [stringifyMembers, quoteJSONString]
    | cons kv2 rest2 =>
      simp only [stringifyMembers, List.length_append, List.length_cons] at ih ⊢
      omega

/-- `JSON.parse(JSON.stringify(o))` gives back the members of `o`, one after the other. -/
theorem JSON_parse_stringify (o : Store) :
    JSON_parse (JSON_stringify o) =
      some (o.foldl (fun (a : Store) kv => Store.set a kv.1 kv.2) ([] : Store)) := by
  cases o with
  | nil => simp [JSON_parse, JSON_stringify, stringifyMembers]
  | cons kv rest =>
    obtain ⟨ys, hys⟩ := stringifyMembers_cons kv rest
    have hlen := stringifyMembers_length (kv :: rest)
    have hne : chQuote ≠ chClose := by decide
    have hread := readMembers_stringify (kv :: rest) (by simp)
      (chOpen :: (stringifyMembers (kv :: rest) ++ [chClose])).length []
      (by simp only [List.length_cons, List.length_append] at hlen ⊢; omega)
    rw [hys] at hread
    simp only [JSON_parse, JSON_stringify, hys, if_true, hne, false_and, if_false]
    exact hread

theorem Store.mem_keys_set (o : Store) (k v x : String) :
    x ∈ (Store.set o k v).keys ↔ x = k ∨ x ∈ o.keys := by
  induction o with
  | nil => simp [Store.set, Store.keys]
  | cons kv rest ih =>
    obtain ⟨k0, v0⟩ := kv
    simp only [Store.keys] at ih
    by_cases h : k0 = k
    · subst h
      simp [Store.set, Store.keys]
    · simp only [Store.set, h, if_false, Store.keys, List.map_cons, List.mem_cons, ih]
      tauto

theorem Store.mem_keys_foldl_set (o acc : Store) (x : String) :
    x ∈ (o.foldl (fun (a : Store) kv => Store.set a kv.1 kv.2) acc).keys ↔
      x ∈ o.keys ∨ x ∈ acc.keys := by
  induction o generalizing acc with
  | nil => simp [Store.keys]
  | cons kv rest ih =>
    rw [List.foldl_cons, ih, Store.mem_keys_set]
    simp only [Store.keys, List.map_cons, List.mem_cons]
    tauto

theorem mem_keys_addSomeListId (p : ListClass) (k x : String) :
    x ∈ (p.addSomeListId [k]).someListId.keys ↔ x = k ∨ x ∈ p.someListId.keys := by
  simp only [ListClass.addSomeListId, List.foldl_cons, List.foldl_nil, ListClass.addSomeListId1,
    Store.mem_keys_set]

theorem mem_keys_restore (ks : List String) (p : ListClass) (x : String) :
    x ∈ (ks.foldl (fun q key => q.addSomeListId [key]) p).someListId.keys ↔
      x ∈ ks ∨ x ∈ p.someListId.keys := by
  induction ks generalizing p with
  | nil => simp
  | cons k rest ih =>
    rw [List.foldl_cons, ih, mem_keys_addSomeListId]
    simp only [List.mem_cons]
    tauto

/-- C2: the favourites store written by the `beforeunload` handler and read back at page start
into the fresh photo List.  The restore succeeds, and an identifier is stored afterwards
exactly when it was stored in the saved store (whether or not that store is empty). -/
theorem restoreFavorites_beforeunload (params : ListClass) :
    ∃ restored : ListClass,
      restoreFavorites (some (beforeunload params)) paramsPhoto = some restored ∧
      ∀ id : String, id ∈ restored.someListId.keys ↔ id ∈ params.someListId.keys := by
  have hfresh : paramsPhoto.someListId.keys = [] := rfl
  refine ⟨((params.someListId.foldl (fun (a : Store) kv => Store.set a kv.1 kv.2)
    ([] : Store)).keys.foldl (fun q key => q.addSomeListId [key]) paramsPhoto), ?_, ?_⟩
  · simp only [restoreFavorites, beforeunload, JSON_parse_stringify]
  · intro id
    rw [mem_keys_restore, Store.mem_keys_foldl_set, hfresh]
    simp [Store.keys]

/-! ## Identifiers of photo items -/

theorem indexOfFrom_not_mem (c : Char) (p : List Char) :
    ∀ (l : List Char) (i : Nat), c ∉ l → indexOfFrom (c :: p) l i = -1 := by
  intro l
  induction l with
  | nil => intro i _; simp [indexOfFrom]
  | cons x xs ih =>
    intro i h
    have hx : ¬ (c = x) := fun e => h (by simp [e])
    have hxs : c ∉ xs := fun e => h (by simp [e])
    simp [indexOfFrom, List.isPrefixOf, hx, ih (i + 1) hxs]

theorem toDigitsCore_ne (bad : Char) (hbad : ∀ m, m < 10 → Nat.digitChar m ≠ bad) :
    ∀ (fuel n : Nat) (ds : List Char), bad ∉ ds → bad ∉ Nat.toDigitsCore 10 fuel n ds := by
  intro fuel
  induction fuel with
  | zero => intro n ds h; simpa [Nat.toDigitsCore] using h
  | succ f ih =>
    intro n ds h
    have hd : bad ∉ Nat.digitChar (n % 10) :: ds := by
      intro hm
      rcases List.mem_cons.1 hm with e | e
      · exact hbad (n % 10) (Nat.mod_lt _ (by decide)) e.symm
      · exact h e
    simp only [Nat.toDigitsCore]
    split_ifs
    · exact hd
    · exact ih _ _ hd

theorem repr_no_f (n : Nat) : 'f' ∉ (Nat.repr n).data := by
  have h := toDigitsCore_ne 'f' (by decide) (n + 1) n [] (by simp)
  simpa [Nat.repr, Nat.toDigits, List.asString] using h

/-- The identifier of a catalog photo item does not contain the favourites marker. -/
theorem indexOf_favoritePrefix_photoId (n : Nat) :
    indexOf ("photoId=" ++ Nat.repr n) favoritePrefix = -1 := by
  have hn := repr_no_f n
  have hmem : 'f' ∉ ("photoId=" ++ Nat.repr n).data := by
    simp only [String.data_append, List.mem_append, not_or]
    exact ⟨by decide, hn⟩
  exact indexOfFrom_not_mem 'f' ['a', 'v', '_'] _ 0 hmem

theorem indexOf_favoritePrefix_clone (e : String) :
    indexOf (favoritePrefix ++ e) favoritePrefix = 0 := by
  simp [indexOf, favoritePrefix, indexOfFrom, List.isPrefixOf]

theorem slice_favoritePrefix_clone (e : String) :
    slice (favoritePrefix ++ e) favoritePrefix.length = e := by
  have h4 : ((favoritePrefix.length : Nat) : Int) = 4 := by decide
  have hdata : (favoritePrefix ++ e).data = 'f' :: 'a' :: 'v' :: '_' :: e.data := by
    simp [favoritePrefix]
  have hk : (if (4 : Int) < 0 then max (((e.data.length + 4 : Nat) : Int) + 4) 0
      else min 4 ((e.data.length + 4 : Nat) : Int)) = 4 := by
    rw [if_neg (by decide)]
    omega
  rw [h4]
  unfold slice
  simp only [hdata, List.length_cons, hk]
  rfl

/-! ## Adding and removing a favourite (C4) -/

theorem findIdx_id_map (id : String) (l : List Item) :
    l.findIdx? (fun it => decide (it.id = id)) =
      (l.map Item.id).findIdx? (fun x => decide (x = id)) := by
  rw [List.findIdx?_map]
  rfl

theorem findInLists_outline (id : String) :
    ∀ (us vs : List UList) (k : Nat), us.map UList.outline = vs.map UList.outline →
      findInLists id us k = findInLists id vs k := by
  intro us
  induction us with
  | nil =>
    intro vs k h
    cases vs with
    | nil => rfl
    | cons v vs => simp at h
  | cons u us ih =>
    intro vs k h
    cases vs with
    | nil => simp at h
    | cons v vs =>
      simp only [List.map_cons, List.cons.injEq] at h
      have hids : u.items.map Item.id = v.items.map Item.id := congrArg Prod.snd h.1
      simp only [findInLists, findIdx_id_map, hids, ih vs (k + 1) h.2]

theorem getElementById_outline (pg pg2 : Page) (id : String) (h : pg.outline = pg2.outline) :
    pg.getElementById id = pg2.getElementById id := by
  have h1 : pg.catalog.map Item.id = pg2.catalog.map Item.id := congrArg Prod.fst h
  have h2 : pg.tabsFavorite.lists.map UList.outline = pg2.tabsFavorite.lists.map UList.outline :=
    congrArg Prod.snd h
  simp only [Page.getElementById, findIdx_id_map, h1, findInLists_outline id _ _ 0 h2]

theorem listPhotos_outline (pg pg2 : Page) (h : pg.outline = pg2.outline) :
    pg.listPhotos = pg2.listPhotos := by
  have h2 : pg.tabsFavorite.lists.map UList.outline = pg2.tabsFavorite.lists.map UList.outline :=
    congrArg Prod.snd h
  have h3 := congrArg (List.map Prod.fst) h2
  simp only [List.map_map] at h3
  have key : ∀ us : List UList, us.findIdx? (UList.hasClass "list__photos") =
      (us.map (Prod.fst ∘ UList.outline)).findIdx? id := by
    intro us
    rw [List.findIdx?_map]
    rfl
  simp only [Page.listPhotos, key, h3]

theorem classRemove_contains (cls : List String) (c x : String) (h : x ≠ c) :
    (classRemove cls c).contains x = cls.contains x := by
  rw [Bool.eq_iff_iff]
  simp [classRemove, h]

theorem notEmptyFavoriteTabs_outline (t : Container) :
    (notEmptyFavoriteTabs t).lists.map UList.outline = t.lists.map UList.outline := by
  have step1 : (t.onFirstList "list__photos" (fun cls => classRemove cls "_hidden")).lists.map
      UList.outline = t.lists.map UList.outline := by
    apply modifyFirst_map_eq
    intro u
    simp only [UList.outline, UList.hasClass, classRemove_contains _ _ _ (by decide :
      "list__photos" ≠ "_hidden")]
  have step2 : ∀ c : Container, (c.modifyFirstBlock anyBlock
      (fun b => { b with classes := classAdd b.classes "_hidden" })).lists.map UList.outline =
      c.lists.map UList.outline := by
    intro c
    have inner : (modifyFirst (UList.hasBlock anyBlock) (UList.modifyFirstBlock anyBlock
        (fun b => { b with classes := classAdd b.classes "_hidden" })) c.lists).map
        UList.outline = c.lists.map UList.outline := by
      apply modifyFirst_map_eq
      intro u
      have : (modifyFirst (Item.hasBlock anyBlock) (Item.modifyFirstBlock anyBlock
          (fun b => { b with classes := classAdd b.classes "_hidden" })) u.items).map Item.id =
          u.items.map Item.id :=
        modifyFirst_map_eq Item.id (Item.hasBlock anyBlock) (Item.modifyFirstBlock anyBlock
          (fun b => { b with classes := classAdd b.classes "_hidden" })) (fun _ => rfl) u.items
      simp only [UList.outline, UList.modifyFirstBlock, UList.hasClass, this]
    unfold Container.modifyFirstBlock
    cases c.extraBlock with
    | none => simpa using inner
    | some b => by_cases hb : anyBlock b = true <;> simp [hb, inner]
  unfold notEmptyFavoriteTabs
  simp only [step2, step1]

theorem modifyElement_outline (pg : Page) (loc : Loc) (f : Item → Item)
    (hf : ∀ it, (f it).id = it.id) : (pg.modifyElement loc f).outline = pg.outline := by
  cases loc with
  | catalog i =>
    simp only [Page.modifyElement, Page.outline, modifyAt_map_eq Item.id f hf]
  | favorite l i =>
    have : (modifyAt (fun u : UList => { u with items := modifyAt f i u.items }) l
        pg.tabsFavorite.lists).map UList.outline = pg.tabsFavorite.lists.map UList.outline := by
      apply modifyAt_map_eq
      intro u
      simp only [UList.outline, UList.hasClass, modifyAt_map_eq Item.id f hf]
    simp only [Page.modifyElement, Page.outline, this]

theorem findInLists_append (fid : String) (child : Item) (hc : child.id = fid) :
    ∀ (us : List UList) (l k : Nat), findInLists fid us k = none → l < us.length →
      ∃ i, findInLists fid
        (modifyAt (fun u : UList => { u with items := u.items ++ [child] }) l us) k =
          some (Loc.favorite (k + l) i) := by
  intro us
  induction us with
  | nil => intro l k _ hl; simp at hl
  | cons u us ih =>
    intro l k hnone hl
    have hu : u.items.findIdx? (fun it => decide (it.id = fid)) = none := by
      cases h : u.items.findIdx? (fun it => decide (it.id = fid)) with
      | none => rfl
      | some i => simp [findInLists, h] at hnone
    have hrest : findInLists fid us (k + 1) = none := by
      simpa [findInLists, hu] using hnone
    cases l with
    | zero =>
      refine ⟨u.items.length, ?_⟩
      simp [modifyAt, findInLists, List.findIdx?_append, hu, hc]
    | succ j =>
      obtain ⟨i, hi⟩ := ih j (k + 1) hrest (by simpa using hl)
      refine ⟨i, ?_⟩
      simp only [modifyAt, findInLists, hu, hi]
      congr 2
      omega

theorem findIdx_hasClass_modifyAt (cls : String) (f : UList → UList)
    (hf : ∀ u, (f u).classes = u.classes) (l : Nat) (us : List UList) :
    (modifyAt f l us).findIdx? (UList.hasClass cls) = us.findIdx? (UList.hasClass cls) := by
  have key : ∀ vs : List UList, vs.findIdx? (UList.hasClass cls) =
      (vs.map (UList.hasClass cls)).findIdx? id := by
    intro vs
    rw [List.findIdx?_map]
    rfl
  rw [key, key, modifyAt_map_eq (UList.hasClass cls) f (fun u => by simp [UList.hasClass, hf])]

theorem findIdx_lt {α : Type} (p : α → Bool) (xs : List α) (i : Nat)
    (h : xs.findIdx? p = some i) : i < xs.length := by
  rw [List.findIdx?_eq_some_iff_getElem] at h
  exact h.1

theorem deactivatePhotoCat_outline (pg : Page) (e : String) :
    (deactivatePhotoCat pg e).outline = pg.outline ∧ (deactivatePhotoCat pg e).calls = pg.calls := by
  unfold deactivatePhotoCat
  cases pg.getElementById e with
  | none => exact ⟨rfl, rfl⟩
  | some loc =>
    refine ⟨modifyElement_outline pg loc _ (fun _ => rfl), ?_⟩
    cases loc <;> rfl

theorem removePhotoFav_ok (pg : Page) (e : String)
    (h : pg.listPhotos = none ∨
      ∃ l i, pg.listPhotos = some l ∧
        pg.getElementById (favoritePrefix ++ e) = some (Loc.favorite l i)) :
    (removePhotoFav pg e).thrown = none ∧ (removePhotoFav pg e).st.calls = pg.calls := by
  unfold removePhotoFav
  rcases h with h | ⟨l, i, hl, hg⟩
  · rw [h]
    cases pg.getElementById (favoritePrefix ++ e) <;> exact ⟨rfl, rfl⟩
  · rw [hl, hg]
    simp

theorem favoriteElemId_photo (n : Nat) (elem target : Item)
    (hid : elem.id = "photoId=" ++ Nat.repr n)
    (htarget : target.id = elem.id ∨ target.id = favoritePrefix ++ elem.id) :
    favoriteElemId target = elem.id := by
  unfold favoriteElemId
  rcases htarget with h | h
  · rw [h, hid, indexOf_favoritePrefix_photoId]
    simp
  · rw [h, indexOf_favoritePrefix_clone, slice_favoritePrefix_clone]
    simp

theorem addFavoriteImg_empty (elem : Item) (pg : Page) (params : ListClass)
    (hsize : params.getSizeSomeListId = 0)
    (hfresh : pg.getElementById (favoritePrefix ++ elem.id) = none) :
    (addFavoriteImg elem pg params).2 = params.addSomeListId [elem.id] ∧
    (addFavoriteImg elem pg params).1.calls = pg.calls ++ [Callback.notEmptyFavoriteTabs] ∧
    ((addFavoriteImg elem pg params).1.listPhotos = none ∨
      ∃ l i, (addFavoriteImg elem pg params).1.listPhotos = some l ∧
        (addFavoriteImg elem pg params).1.getElementById (favoritePrefix ++ elem.id) =
          some (Loc.favorite l i)) := by
  have hout : ({ pg with
      tabsFavorite := notEmptyFavoriteTabs pg.tabsFavorite
      calls := pg.calls ++ [Callback.notEmptyFavoriteTabs] } : Page).outline = pg.outline := by
    simp only [Page.outline, notEmptyFavoriteTabs_outline]
  have hlp := listPhotos_outline _ _ hout
  have hget := getElementById_outline _ _ (favoritePrefix ++ elem.id) hout
  rw [hfresh] at hget
  unfold addFavoriteImg
  simp only [hsize, if_true]
  cases hl : pg.listPhotos with
  | none =>
    simp only [hl]
    refine ⟨trivial, trivial, Or.inl ?_⟩
    rw [← hl]
    exact hlp
  | some l =>
    simp only [hl]
    refine ⟨trivial, trivial, Or.inr ?_⟩
    rw [hl] at hlp
    have hlt : l < (notEmptyFavoriteTabs pg.tabsFavorite).lists.length :=
      findIdx_lt _ _ _ hlp
    have hcat : pg.catalog.findIdx? (fun it => decide (it.id = favoritePrefix ++ elem.id)) =
        none := by
      cases h : pg.catalog.findIdx? (fun it => decide (it.id = favoritePrefix ++ elem.id)) with
      | none => rfl
      | some i => simp [Page.getElementById, h] at hget
    have hlists : findInLists (favoritePrefix ++ elem.id)
        (notEmptyFavoriteTabs pg.tabsFavorite).lists 0 = none := by
      simpa [Page.getElementById, hcat] using hget
    obtain ⟨i, hi⟩ := findInLists_append (favoritePrefix ++ elem.id)
      { elem with id := favoritePrefix ++ elem.id } rfl _ l 0 hlists hlt
    refine ⟨l, i, ?_, ?_⟩
    · have := findIdx_hasClass_modifyAt "list__photos"
        (fun u : UList => { u with items := u.items ++
          [({ elem with id := favoritePrefix ++ elem.id } : Item)] }) (fun _ => rfl) l
        (notEmptyFavoriteTabs pg.tabsFavorite).lists
      simp only [Page.listPhotos] at hlp ⊢
      rw [← hlp]
      exact this
    · simp only [Page.getElementById, hcat]
      rw [hi]
      simp

/-- C4: a photo added to the empty favourites store and removed again, through the catalog
element or through its favourites-tab clone.  `elem` is the photo item `photoId=n`, `target`
the element handed to `removeFavoriteImg`; the document has no element with the identifier of
the clone before.  After `addFavoriteImg` the store holds the identifier of the photo; after
`removeFavoriteImg` it holds none and the counter is 0; and the two calls have invoked
`notEmptyFavoriteTabs` and then `emptyFavoriteTabs`, once each. -/
theorem addFavoriteImg_removeFavoriteImg (n : Nat) (elem target : Item) (pg : Page)
    (params : ListClass)
    (hid : elem.id = "photoId=" ++ Nat.repr n)
    (htarget : target.id = elem.id ∨ target.id = favoritePrefix ++ elem.id)
    (hstore : params.someListId = [])
    (hsize : params.getSizeSomeListId = 0)
    (hfresh : pg.getElementById (favoritePrefix ++ elem.id) = none) :
    (addFavoriteImg elem pg params).2.someListId.keys = [elem.id] ∧
    (removeFavoriteImg target (addFavoriteImg elem pg params).1
      (addFavoriteImg elem pg params).2).st.2.someListId = [] ∧
    (removeFavoriteImg target (addFavoriteImg elem pg params).1
      (addFavoriteImg elem pg params).2).st.2.getSizeSomeListId = 0 ∧
    (removeFavoriteImg target (addFavoriteImg elem pg params).1
      (addFavoriteImg elem pg params).2).st.1.calls =
        pg.calls ++ [Callback.notEmptyFavoriteTabs, Callback.emptyFavoriteTabs] := by
  obtain ⟨hparams, hcalls, hclone⟩ := addFavoriteImg_empty elem pg params hsize hfresh
  have hlen : params.someListIdLength = 0 := hsize
  have hadded : (params.addSomeListId [elem.id]).someListId.keys = [elem.id] := by
    simp [ListClass.addSomeListId, ListClass.addSomeListId1, hstore, Store.set, Store.keys]
  have hremoved : ((params.addSomeListId [elem.id]).removeSomeListId [elem.id]).someListId = [] := by
    simp [ListClass.addSomeListId, ListClass.addSomeListId1, ListClass.removeSomeListId,
      ListClass.removeSomeListId1, hstore, Store.set, Store.delete]
  have hcount : ((params.addSomeListId [elem.id]).removeSomeListId
      [elem.id]).getSizeSomeListId = 0 := by
    simp [ListClass.addSomeListId, ListClass.addSomeListId1, ListClass.removeSomeListId,
      ListClass.removeSomeListId1, ListClass.getSizeSomeListId, hlen]
  have hcat := deactivatePhotoCat_outline (addFavoriteImg elem pg params).1 elem.id
  have hok := removePhotoFav_ok (deactivatePhotoCat (addFavoriteImg elem pg params).1 elem.id)
    elem.id (by
      rw [listPhotos_outline _ _ hcat.1, getElementById_outline _ _ _ hcat.1]
      exact hclone)
  refine ⟨by rw [hparams]; exact hadded, ?_⟩
  unfold removeFavoriteImg
  simp only [favoriteElemId_photo n elem target hid htarget, hok.1, hparams, hcount, if_true,
    hremoved, hok.2, hcat.2, hcalls]
  simp

/-- C4 at the photo 5: the catalog item is starred and the clone in the favourites tab is
un-starred. -/
theorem addFavoriteImg_removeFavoriteImg_witness :
    (removeFavoriteImg (photoItem "fav_photoId=5" true (photoRecord 5))
      (addFavoriteImg (photoItem "photoId=5" true (photoRecord 5))
        { catalog := [photoItem "photoId=5" true (photoRecord 5)]
          tabsFavorite := (createList ListData.emptyObject favoriteTabBlock paramsPhoto true).parent
          calls := [] } paramsPhoto).1
      (addFavoriteImg (photoItem "photoId=5" true (photoRecord 5))
        { catalog := [photoItem "photoId=5" true (photoRecord 5)]
          tabsFavorite := (createList ListData.emptyObject favoriteTabBlock paramsPhoto true).parent
          calls := [] } paramsPhoto).2).st.1.calls =
      [] ++ [Callback.notEmptyFavoriteTabs, Callback.emptyFavoriteTabs] :=
  (addFavoriteImg_removeFavoriteImg 5 (photoItem "photoId=5" true (photoRecord 5))
    (photoItem "fav_photoId=5" true (photoRecord 5))
    { catalog := [photoItem "photoId=5" true (photoRecord 5)]
      tabsFavorite := (createList ListData.emptyObject favoriteTabBlock paramsPhoto true).parent
      calls := [] } paramsPhoto (by decide) (Or.inr (by decide)) rfl rfl (by decide)).2.2.2

/-- C7 at an album item whose photo list waits for two thumbnails, one of which fails. -/
theorem waitAllPromises_all_or_nothing_witness :
    (waitAllPromises [Outcome.success, Outcome.failure]
      (createList (.array [photoRecord 1, photoRecord 2]) (albumItem "albumId=1") paramsPhoto
        false).parent 0 false 0).ranThen = false ∧
    (waitAllPromises [Outcome.success, Outcome.failure]
      (createList (.array [photoRecord 1, photoRecord 2]) (albumItem "albumId=1") paramsPhoto
        false).parent 0 false 0).ranCatch = true ∧
    (waitAllPromises [Outcome.success, Outcome.failure]
      (createList (.array [photoRecord 1, photoRecord 2]) (albumItem "albumId=1") paramsPhoto
        false).parent 0 false 0).parent.lists.map UList.classes = [["list__photos", "_hidden"]] :=
  have h := (waitAllPromises_all_or_nothing [Outcome.success, Outcome.failure]
    (createList (.array [photoRecord 1, photoRecord 2]) (albumItem "albumId=1") paramsPhoto
      false).parent 0 false 0).1 (by decide)
  ⟨h.1, h.2.1, h.2.2.2.trans (by decide)⟩

/-! ## The popup request for catalog items -/

/-- For the catalog item of every photo `n`, `showPopupImg` requests `urlPhotos + "?id=" + n`. -/
theorem showPopupImg_catalog_item_url (n : Nat) (elem : Item) (popup : Popup) (w1 w2 : Int)
    (hid : elem.id = "photoId=" ++ Nat.repr n) :
    (showPopupImg elem popup w1 w2).2 = urlPhotos ++ "?id=" ++ Nat.repr n := by
  have hidx : indexOf elem.id paramsPhoto.id = 0 := by
    have hp : paramsPhoto.id = "photoId" := photoState_id [] 0 []
    rw [hid, hp]
    simp [indexOf, indexOfFrom, List.isPrefixOf]
  have hlen : ((paramsPhoto.id.length : Nat) : Int) + 1 = 8 := by decide
  have hdata : ("photoId=" ++ Nat.repr n).data =
      'p' :: 'h' :: 'o' :: 't' :: 'o' :: 'I' :: 'd' :: '=' :: (Nat.repr n).data := by
    simp
  have hk : (if (8 : Int) < 0 then max ((((Nat.repr n).data.length + 8 : Nat) : Int) + 8) 0
      else min 8 (((Nat.repr n).data.length + 8 : Nat) : Int)) = 8 := by
    rw [if_neg (by decide)]
    omega
  have hslice : slice elem.id (((paramsPhoto.id.length : Nat) : Int) + 1) = Nat.repr n := by
    rw [hlen, hid]
    unfold slice
    simp only [hdata, List.length_cons, hk]
    rfl
  simp only [showPopupImg, hidx, hslice]
  simp

/-! ## Repeated failures (C11) -/

/-- C11, evaluated on the favourites tab.  A load fails (error block, mark `_added-msg`), the
last favourite is removed (`emptyFavoriteTabs` replaces the error block by the empty-favourites
message, the mark stays), and the next load fails: `errorLoad` finds the mark and shows the
first message block again, so the tab holds the empty-favourites message and no error message
block, with or without a load start before the call. -/
theorem errorLoad_after_emptyFavoriteTabs :
    (runLoadEvents [.loadStart, .errorLoad] favoriteTabBlock).st.extraBlock =
      some { classes := ["extra-block"], preload := 0, msgs := [errorMsg] } ∧
    staleErrorMark.extraBlock =
      some { classes := ["extra-block"], preload := 0, msgs := [emptyMsg] } ∧
    staleErrorMark.classes.contains "_added-msg" = true ∧
    (errorLoad staleErrorMark).thrown = none ∧
    (errorLoad staleErrorMark).st.extraBlock =
      some { classes := ["extra-block"], preload := 0, msgs := [emptyMsg] } ∧
    (runLoadEvents [.loadStart, .errorLoad] staleErrorMark).st.extraBlock =
      some { classes := ["extra-block"], preload := 0, msgs := [emptyMsg] } ∧
    ((runLoadEvents [.loadStart, .errorLoad] staleErrorMark).st.extraBlock.map
      (fun b => (b.msgs.filter MsgBlock.isError).length)) = some 0 := by
  decide

/-- A second way `errorLoad` misses: the container has no `.preload` in its own info block
while an item of its list has one; `removeChild` is given that one and raises, and no message
block is added. -/
theorem errorLoad_nested_preload :
    (errorLoad userItemAlbumLoading).thrown =
      some "NotFoundError: the node is not a child of this node" ∧
    (errorLoad userItemAlbumLoading).st = userItemAlbumLoading := by
  decide

/-! ## The favourites tab without an info block (C14) -/

/-- C14, evaluated on a favourites tab that has a photo list and no info block:
`emptyFavoriteTabs` hides the list and then raises on the assignment to the constant
`extraBlock`; no message block is shown.  With an info block that holds two message blocks it
completes and leaves two message blocks. -/
theorem emptyFavoriteTabs_without_info_block :
    (emptyFavoriteTabs favoriteTabNoBlock).thrown =
      some "TypeError: Assignment to constant variable." ∧
    (emptyFavoriteTabs favoriteTabNoBlock).st.extraBlock = none ∧
    (emptyFavoriteTabs favoriteTabNoBlock).st.lists.map UList.classes =
      [["list__photos", "_hidden"]] ∧
    ((emptyFavoriteTabs
      { favoriteTabBlock with
        extraBlock := some { classes := ["extra-block"], preload := 0,
                             msgs := [emptyMsg, errorMsg] } }).st.extraBlock.map
      ExtraBlock.msgs) = some [errorMsg, emptyMsg] := by
  decide

/-! ## Arguments of a decorator (C13) -/

/-- C13 fails for a decorator registered without a field name: for the photo record 5,
`createList` calls it with one argument, the `li`, and not with the record and the `li`. -/
theorem createList_decorator_without_attr :
    (createList (.array [photoRecord 5]) (albumItem "albumId=1") paramsProbe
      false).parent.lists.map (fun l => l.items.map Item.children) =
      [[[Node.itemTitle Arg.handle 0]]] ∧
    (createList (.array [photoRecord 5]) (albumItem "albumId=1") paramsProbe
      false).parent.lists.map (fun l => l.items.map Item.children) ≠
      [[[Node.itemTitle (Arg.record (photoRecord 5)) 0, Node.itemTitle Arg.handle 0]]] := by
  decide

/-! ## Expanding an item (C12) -/

/-- C12 fails after a failed load: on a collapsed album item, the events click, rejection,
click, click trigger two loads; the second one is triggered by the third click, a later
expanding click.  Each click has toggled the item. -/
theorem later_click_loads_again :
    ((freshAlbumItem "albumId=1").run
      [.click paramsPhoto, .failed, .click paramsPhoto, .click paramsPhoto]).requests =
      ["https://json.medrating.org/photos?albumId=1",
       "https://json.medrating.org/photos?albumId=1"] ∧
    ((freshAlbumItem "albumId=1").run [.click paramsPhoto]).listItem.classes =
      ["list__albums-item", "_active"] ∧
    ((freshAlbumItem "albumId=1").run [.click paramsPhoto, .failed]).listItem.classes =
      ["list__albums-item", "_active", "_added-msg"] ∧
    ((freshAlbumItem "albumId=1").run
      [.click paramsPhoto, .failed, .click paramsPhoto]).listItem.classes =
      ["list__albums-item", "_added-msg"] ∧
    ((freshAlbumItem "albumId=1").run
      [.click paramsPhoto, .failed, .click paramsPhoto, .click paramsPhoto]).listItem.classes =
      ["list__albums-item", "_added-msg", "_active"] := by
  decide

/-- An expanding click made while the first load is still pending also triggers a load, and
both responses are rendered: the item gets two lists. -/
theorem click_while_pending_loads_again :
    ((freshAlbumItem "albumId=1").run
      [.click paramsPhoto, .click paramsPhoto, .click paramsPhoto]).requests =
      ["https://json.medrating.org/photos?albumId=1",
       "https://json.medrating.org/photos?albumId=1"] ∧
    ((freshAlbumItem "albumId=1").run
      [.click paramsPhoto, .click paramsPhoto, .click paramsPhoto,
       .loaded (.array [photoRecord 1]) paramsPhoto,
       .loaded (.array [photoRecord 1]) paramsPhoto]).listItem.lists.map
      (fun l => l.items.map Item.id) = [["photoId=1"], ["photoId=1"]] := by
  decide

theorem applyFuncs_probe (r : Record) (kas : List (String × Option String)) :
    ∀ item : Item,
      applyFuncs (kas.map (fun ka => (ka.1, ({ func := probe, attr := ka.2 } : FuncObj)))) r item =
        { st := { item with
            children := item.children ++ kas.flatMap (fun ka => probeTitles ka.2 r) } } := by
  induction kas with
  | nil => intro item; simp [applyFuncs]
  | cons ka rest ih =>
    intro item
    obtain ⟨k, a⟩ := ka
    cases a with
    | none => simp [applyFuncs, probe, ih, probeTitles]
    | some a => simp [applyFuncs, probe, ih, probeTitles]

/-- C13, as amended: the arguments `createList` calls a decorator with.  For every List whose
decorators are copies of `probe`, registered under any keys with or without a field name, and
every record, no decorator raises and the `li` holds, decorator after decorator in the order of
registration, the titles of the arguments of its call: the value of the field and the `li` for a
decorator with a field name, the `li` alone for a decorator without one. -/
theorem createItem_decorator_args (params : ListClass) (fav : Bool) (r : Record)
    (kas : List (String × Option String))
    (h : params.funcs = kas.map (fun ka => (ka.1, ({ func := probe, attr := ka.2 } : FuncObj)))) :
    (createItem params fav r).thrown = none ∧
    (createItem params fav r).st.children = kas.flatMap (fun ka => probeTitles ka.2 r) ∧
    (∀ a, probeTitles (some a) r =
      [Node.itemTitle (Arg.val (r.get a)) 0, Node.itemTitle Arg.handle 0]) ∧
    probeTitles none r = [Node.itemTitle Arg.handle 0] := by
  refine ⟨?_, ?_, fun _ => rfl, rfl⟩
  · unfold createItem
    simp only [h, applyFuncs_probe]
  · unfold createItem
    simp only [h, applyFuncs_probe]
    split_ifs <;> simp

/-- C13, as amended, at a List with two decorators, the first registered with the field name
`title` and the second without one. -/
theorem createItem_decorator_args_witness :
    (createItem ((ListClass.new "photo").addFunction
      [{ func := probe, attr := some "title" }, { func := probe, attr := none }]) false
      (photoRecord 5)).st.children =
      [Node.itemTitle (Arg.val (Val.str "t")) 0, Node.itemTitle Arg.handle 0,
       Node.itemTitle Arg.handle 0] :=
  (createItem_decorator_args ((ListClass.new "photo").addFunction
    [{ func := probe, attr := some "title" }, { func := probe, attr := none }]) false
    (photoRecord 5) [("f1", some "title"), ("f2", none)] rfl).2.1.trans (by decide)

/-! ## The mark `_added-list` (C12) -/

theorem modifyFirstBlock_classes (p : ExtraBlock → Bool) (f : ExtraBlock → ExtraBlock)
    (c : Container) : (c.modifyFirstBlock p f).classes = c.classes := by
  unfold Container.modifyFirstBlock
  cases c.extraBlock with
  | none => rfl
  | some b => by_cases hb : p b = true <;> simp [hb]

theorem classToggle_contains (cls : List String) (c x : String) (h : x ≠ c) :
    (classToggle cls c).contains x = cls.contains x := by
  unfold classToggle
  split_ifs
  · exact classRemove_contains cls c x h
  · rw [Bool.eq_iff_iff]
    simp [h]

theorem classToggle_self (cls : List String) (c : String) :
    (classToggle cls c).contains c = !cls.contains c := by
  unfold classToggle
  split_ifs with h
  · rw [h]
    simp [classRemove]
  · have h2 : cls.contains c = false := by simpa using h
    rw [h2]
    simp

theorem classAdd_self (cls : List String) (c : String) : (classAdd cls c).contains c = true := by
  unfold classAdd
  split_ifs with h
  · exact h
  · simp

theorem createListFinish_classes (parent : Container) (params : ListClass) (elem : Nat)
    (u : Bool) : (createListFinish parent params elem u).parent.classes = parent.classes := by
  unfold createListFinish
  cases params.promise with
  | none =>
    simp only
    split_ifs
    · simp only [Container.onFirstList, modifyFirstBlock_classes]
    · rfl
  | some lp =>
    simp only
    split_ifs
    · simp only [modifyFirstBlock_classes]
    · rfl

/-- Whatever the data, `createList` marks the container `_added-list`. -/
theorem createList_classes (data : ListData) (parent : Container) (params : ListClass)
    (u : Bool) :
    (createList data parent params u).parent.classes = classAdd parent.classes "_added-list" := by
  unfold createList
  simp only
  split_ifs
  · rfl
  · split
    · rfl
    · rw [createListFinish_classes]

theorem errorLoadPreload_classes (c : Container) :
    (errorLoadPreload c).st.classes = c.classes := by
  unfold errorLoadPreload
  split_ifs
  · split
    · split_ifs
      · exact modifyFirstBlock_classes _ _ _
      · rfl
    · rfl
  · rfl

theorem errorLoad_added_list (c : Container) :
    (errorLoad c).st.classes.contains "_added-list" = c.classes.contains "_added-list" := by
  have h2 : ∀ d : Container,
      (errorLoadMsg d).st.classes.contains "_added-list" = d.classes.contains "_added-list" := by
    intro d
    unfold errorLoadMsg
    split_ifs
    · rw [modifyFirstBlock_classes]
    · rfl
    · exact classAdd_contains _ _ _ (by decide)
    · rfl
  unfold errorLoad
  simp only
  split
  · rw [errorLoadPreload_classes]
  · rw [h2, errorLoadPreload_classes]

theorem getDataJSONLoad_added_list (c : Container) :
    (getDataJSONLoad c).st.classes.contains "_added-list" = c.classes.contains "_added-list" := by
  have hrem : (classRemove c.classes "_added-msg").contains "_added-list" =
      c.classes.contains "_added-list" := classRemove_contains _ _ _ (by decide)
  unfold getDataJSONLoad
  split_ifs
  · simp only
    split
    · exact hrem
    · split_ifs
      · rw [modifyFirstBlock_classes]; exact hrem
      · exact hrem
      · exact hrem
  · rfl

theorem waitAllPromises_added_list (arr : List Outcome) (c : Container) (elem : Nat)
    (len : Int) :
    (waitAllPromises arr c elem false len).parent.classes.contains "_added-list" =
      c.classes.contains "_added-list" := by
  have hthen : (waitAllPromisesThen c elem false len).thrown = none ∧
      (waitAllPromisesThen c elem false len).st.classes = c.classes := by
    unfold waitAllPromisesThen
    simp only [Bool.false_eq_true, if_false]
    split_ifs
    · exact ⟨trivial, modifyFirstBlock_classes _ _ _⟩
    · exact ⟨trivial, rfl⟩
  unfold waitAllPromises
  cases Promise_all arr with
  | pending => rfl
  | failure => exact errorLoad_added_list c
  | success =>
    simp only [hthen.1, hthen.2]

theorem addList_request (url : String) (parent : Container) (params : ListClass) :
    addList url parent params false =
      { parent := parent, params := params
        requests := [url ++ (if parent.id ≠ "" then "?" ++ parent.id else "")] } := rfl

theorem clickOnDropdownBtn_item (btn : List String) (listItem : Container) (photo : ListClass) :
    (clickOnDropdownBtn btn listItem photo).listItem =
      { listItem with classes := classToggle listItem.classes "_active" } ∧
    (clickOnDropdownBtn btn listItem photo).btn = classToggle btn "_active" := by
  simp only [clickOnDropdownBtn]
  split_ifs <;> exact ⟨rfl, rfl⟩

theorem clickOnDropdownBtn_added (btn : List String) (listItem : Container) (photo : ListClass) :
    (clickOnDropdownBtn btn listItem photo).added =
      if ((classToggle listItem.classes "_active").contains "_added-list" ||
          !(classToggle listItem.classes "_active").contains "_active") = true then none
      else if (classToggle listItem.classes "_active").contains "list__albums-item" = true then
        some (addList urlPhotos { listItem with classes := classToggle listItem.classes "_active" }
          photo false)
      else if (classToggle listItem.classes "_active").contains "list__users-item" = true then
        some (addList urlAlbums { listItem with classes := classToggle listItem.classes "_active" }
          paramsAlbum false)
      else none := by
  simp only [clickOnDropdownBtn]
  split_ifs <;> rfl

theorem getDataJSONLoadStart_classes (c : Container) :
    (getDataJSONLoadStart c).classes = c.classes :=
  modifyFirstBlock_classes _ _ _

theorem step_click (s : ItemState) (photo : ListClass) :
    (s.step (.click photo)).listItem.classes = classToggle s.listItem.classes "_active" ∧
    (s.step (.click photo)).btn = classToggle s.btn "_active" ∧
    (s.step (.click photo)).requests = s.requests ++
      (match (clickOnDropdownBtn s.btn s.listItem photo).added with
        | some a => a.requests
        | none => []) := by
  obtain ⟨hitem, hbtn⟩ := clickOnDropdownBtn_item s.btn s.listItem photo
  have hadded := clickOnDropdownBtn_added s.btn s.listItem photo
  cases hc : (clickOnDropdownBtn s.btn s.listItem photo).added with
  | none =>
    simp only [ItemState.step, hc, hitem, hbtn, List.append_nil, and_self]
  | some a =>
    have hparent : a.parent.classes = classToggle s.listItem.classes "_active" := by
      rw [hc] at hadded
      split_ifs at hadded
      · rw [addList_request] at hadded
        cases hadded
        rfl
      · rw [addList_request] at hadded
        cases hadded
        rfl
    simp only [ItemState.step, hc, hbtn, getDataJSONLoadStart_classes, hparent, and_self]

theorem step_rendered (s : ItemState) (ev : ItemEvent)
    (h : s.listItem.classes.contains "_added-list" = true) :
    (s.step ev).requests = s.requests ∧
      (s.step ev).listItem.classes.contains "_added-list" = true := by
  cases ev with
  | click photo =>
    obtain ⟨h1, _, h3⟩ := step_click s photo
    have h4 : (classToggle s.listItem.classes "_active").contains "_added-list" = true := by
      rw [classToggle_contains _ _ _ (by decide)]; exact h
    have hadded := clickOnDropdownBtn_added s.btn s.listItem photo
    simp only [h4, Bool.true_or, if_true] at hadded
    rw [hadded] at h3
    exact ⟨by simpa using h3, by rw [h1]; exact h4⟩
  | loaded data photo =>
    have hload := getDataJSONLoad_added_list s.listItem
    by_cases hp : s.pending = 0
    · simp only [ItemState.step, hp, if_true]
      exact ⟨trivial, h⟩
    · cases ht : (getDataJSONLoad s.listItem).thrown with
      | some e =>
        simp only [ItemState.step, hp, if_false, ht]
        exact ⟨trivial, by rw [hload]; exact h⟩
      | none =>
        simp only [ItemState.step, hp, if_false, ht, createList_classes]
        exact ⟨trivial, classAdd_self _ _⟩
  | failed =>
    by_cases hp : s.pending = 0
    · simp only [ItemState.step, hp, if_true]
      exact ⟨trivial, h⟩
    · simp only [ItemState.step, hp, if_false]
      exact ⟨trivial, by rw [errorLoad_added_list]; exact h⟩
  | settled arr elem len =>
    simp only [ItemState.step]
    exact ⟨trivial, by rw [waitAllPromises_added_list]; exact h⟩

theorem run_rendered (evs : List ItemEvent) :
    ∀ s : ItemState, s.listItem.classes.contains "_added-list" = true →
      (s.run evs).requests = s.requests ∧
        (s.run evs).listItem.classes.contains "_added-list" = true := by
  induction evs with
  | nil => intro s h; exact ⟨rfl, h⟩
  | cons ev rest ih =>
    intro s h
    obtain ⟨h1, h2⟩ := step_rendered s ev h
    obtain ⟨h3, h4⟩ := ih (s.step ev) h2
    have hrun : s.run (ev :: rest) = (s.step ev).run rest := rfl
    rw [hrun]
    exact ⟨h3.trans h1, h4⟩

/-- C12, as amended.  On a user or album item: every click on the expand control toggles the
class `_active` of the item and of the control; a click on an expanded item triggers no load;
a click on a collapsed item into which no list has been rendered, made while none of its loads
is pending, triggers one load, for the URL of its child list, so the first click does, and so
does an expanding click after a failed load, since a rejection does not mark the item; a
response that `createList` renders marks the item `_added-list`; and from a marked item on, no
sequence of clicks, responses, rejections and settled barriers triggers a load or removes the
mark. -/
theorem expand_click_loads (s : ItemState) (photo : ListClass) :
    ((s.step (.click photo)).listItem.classes.contains "_active" =
        !s.listItem.classes.contains "_active" ∧
      (s.step (.click photo)).btn = classToggle s.btn "_active") ∧
    (s.listItem.classes.contains "_active" = true →
      (s.step (.click photo)).requests = s.requests) ∧
    (s.pending = 0 → s.listItem.classes.contains "_added-list" = false →
      s.listItem.classes.contains "_active" = false →
      (s.listItem.classes.contains "list__albums-item" = true →
        (s.step (.click photo)).requests =
          s.requests ++ [urlPhotos ++ (if s.listItem.id ≠ "" then "?" ++ s.listItem.id else "")]) ∧
      (s.listItem.classes.contains "list__albums-item" = false →
        s.listItem.classes.contains "list__users-item" = true →
        (s.step (.click photo)).requests =
          s.requests ++ [urlAlbums ++ (if s.listItem.id ≠ "" then "?" ++ s.listItem.id else "")])) ∧
    ((s.step .failed).listItem.classes.contains "_added-list" =
      s.listItem.classes.contains "_added-list") ∧
    (∀ data, 0 < s.pending → (getDataJSONLoad s.listItem).thrown = none →
      (s.step (.loaded data photo)).listItem.classes.contains "_added-list" = true) ∧
    (∀ evs, s.listItem.classes.contains "_added-list" = true →
      (s.run evs).requests = s.requests ∧
        (s.run evs).listItem.classes.contains "_added-list" = true) := by
  obtain ⟨hcls, hbtn, hreq⟩ := step_click s photo
  have hadded := clickOnDropdownBtn_added s.btn s.listItem photo
  have hother : ∀ x : String, x ≠ "_active" →
      (classToggle s.listItem.classes "_active").contains x = s.listItem.classes.contains x :=
    fun x hx => classToggle_contains _ _ x hx
  refine ⟨⟨?_, hbtn⟩, ?_, ?_, ?_, ?_, ?_⟩
  · rw [hcls, classToggle_self]
  · intro hact
    have h1 : (classToggle s.listItem.classes "_active").contains "_active" = false := by
      rw [classToggle_self, hact]; rfl
    simp only [h1, Bool.not_false, Bool.or_true, if_true] at hadded
    rw [hadded] at hreq
    simpa using hreq
  · intro _ hlist hact
    have h1 : (classToggle s.listItem.classes "_active").contains "_active" = true := by
      rw [classToggle_self, hact]; rfl
    have h2 : (classToggle s.listItem.classes "_active").contains "_added-list" = false := by
      rw [hother _ (by decide)]; exact hlist
    simp only [h1, h2, Bool.not_true, Bool.or_false, Bool.false_eq_true, if_false] at hadded
    constructor
    · intro halbum
      have h3 : (classToggle s.listItem.classes "_active").contains "list__albums-item" = true := by
        rw [hother _ (by decide)]; exact halbum
      simp only [h3, if_true] at hadded
      rw [hadded, addList_request] at hreq
      exact hreq
    · intro halbum huser
      have h3 : (classToggle s.listItem.classes "_active").contains "list__albums-item" =
          false := by
        rw [hother _ (by decide)]; exact halbum
      have h4 : (classToggle s.listItem.classes "_active").contains "list__users-item" = true := by
        rw [hother _ (by decide)]; exact huser
      simp only [h3, h4, Bool.false_eq_true, if_false, if_true] at hadded
      rw [hadded, addList_request] at hreq
      exact hreq
  · by_cases hp : s.pending = 0
    · simp only [ItemState.step, hp, if_true]
    · simp only [ItemState.step, hp, if_false]
      exact errorLoad_added_list _
  · intro data hp hok
    have hp2 : ¬ s.pending = 0 := by omega
    simp only [ItemState.step, hp2, if_false, hok, createList_classes]
    exact classAdd_self _ _
  · intro evs h
    exact run_rendered evs s h

/-- C12, as amended, at a collapsed album item without a list: the first click triggers the
load of its photos; and once the response is rendered, three more clicks trigger none. -/
theorem expand_click_loads_witness :
    ((freshAlbumItem "albumId=1").step (.click paramsPhoto)).requests =
      ["https://json.medrating.org/photos?albumId=1"] ∧
    ((((freshAlbumItem "albumId=1").run
        [.click paramsPhoto, .loaded (.array [photoRecord 1]) paramsPhoto]).run
        [.click paramsPhoto, .click paramsPhoto, .click paramsPhoto]).requests =
      ["https://json.medrating.org/photos?albumId=1"]) :=
  ⟨(((expand_click_loads (freshAlbumItem "albumId=1") paramsPhoto).2.2.1
      (by decide) (by decide) (by decide)).1 (by decide)).trans (by decide),
   (((expand_click_loads ((freshAlbumItem "albumId=1").run
      [.click paramsPhoto, .loaded (.array [photoRecord 1]) paramsPhoto]) paramsPhoto).2.2.2.2.2
      [.click paramsPhoto, .click paramsPhoto, .click paramsPhoto] (by decide)).1).trans
      (by decide)⟩

/-! ## Descriptors are copied (C15) -/

theorem Obj.get_put (o : Obj) (k k2 : String) (v : Field) :
    (o.put k v).get k2 = if k2 = k then v else o.get k2 := by
  induction o with
  | nil =>
    by_cases h : k2 = k
    · subst h; simp [Obj.put, Obj.get, List.lookup]
    · have h2 : (k2 == k) = false := by simpa using h
      simp [Obj.put, Obj.get, List.lookup, h2, h]
  | cons kv rest ih =>
    obtain ⟨k0, v0⟩ := kv
    unfold Obj.get at ih ⊢
    by_cases h0 : k0 = k
    · subst h0
      by_cases h : k2 = k0
      · subst h; simp [Obj.put, List.lookup]
      · have h2 : (k2 == k0) = false := by simpa using h
        simp [Obj.put, List.lookup, h2, h]
    · by_cases h : k2 = k0
      · subst h
        have h3 : ¬ k2 = k := h0
        simp [Obj.put, List.lookup, h0, h3]
      · have h2 : (k2 == k0) = false := by simpa using h
        simp only [Obj.put, h0, if_false, List.lookup, h2]
        exact ih

theorem Obj.get_not_key (o : Obj) (k : String) (h : k ∉ o.keys) : o.get k = .undefined := by
  induction o with
  | nil => rfl
  | cons kv rest ih =>
    obtain ⟨k0, v0⟩ := kv
    simp only [Obj.keys, List.map_cons, List.mem_cons, not_or] at h
    have h2 : (k == k0) = false := by simpa using h.1
    unfold Obj.get at ih ⊢
    simp only [List.lookup, h2]
    exact ih h.2

theorem Heap.length_put (h : Heap) (ref : Nat) (k : String) (v : Field) :
    (h.put ref k v).length = h.length := by
  unfold Heap.put
  induction h generalizing ref with
  | nil => cases ref <;> rfl
  | cons o rest ih =>
    cases ref with
    | zero => rfl
    | succ i => simp [modifyAt, ih]

theorem Heap.get_put_same (h : Heap) (ref : Nat) (k : String) (v : Field)
    (hlt : ref < h.length) : (h.put ref k v).get ref = (h.get ref).put k v := by
  unfold Heap.put Heap.get
  induction h generalizing ref with
  | nil => simp at hlt
  | cons o rest ih =>
    cases ref with
    | zero => rfl
    | succ i =>
      simp only [List.length_cons, Nat.add_lt_add_iff_right] at hlt
      simpa [modifyAt] using ih i hlt

theorem Heap.get_put_other (h : Heap) (ref j : Nat) (k : String) (v : Field)
    (hne : ref ≠ j) : (h.put ref k v).get j = h.get j := by
  unfold Heap.put Heap.get
  induction h generalizing ref j with
  | nil => cases ref <;> rfl
  | cons o rest ih =>
    cases ref with
    | zero =>
      cases j with
      | zero => exact absurd rfl hne
      | succ j => rfl
    | succ i =>
      cases j with
      | zero => rfl
      | succ j =>
        have hne2 : i ≠ j := fun e => hne (by rw [e])
        simpa [modifyAt] using ih i j hne2

theorem copyFields_spec (target source : Nat) (hne : target ≠ source) (ks : List String) :
    ∀ h : Heap, target < h.length →
      (copyFields target source ks h).length = h.length ∧
      (∀ j, j ≠ target → (copyFields target source ks h).get j = h.get j) ∧
      (∀ k, ((copyFields target source ks h).get target).get k =
        if k ∈ ks then (h.get source).get k else (h.get target).get k) := by
  induction ks with
  | nil =>
    intro h _
    exact ⟨rfl, fun _ _ => rfl, fun k => by simp [copyFields]⟩
  | cons attr rest ih =>
    intro h hlt
    have hlen := Heap.length_put h target attr ((h.get source).get attr)
    obtain ⟨h1, h2, h3⟩ := ih (h.put target attr ((h.get source).get attr)) (by rw [hlen]; exact hlt)
    have hsrc : (h.put target attr ((h.get source).get attr)).get source = h.get source :=
      Heap.get_put_other _ _ _ _ _ hne
    refine ⟨?_, ?_, ?_⟩
    · simp only [copyFields]
      rw [h1, hlen]
    · intro j hj
      simp only [copyFields]
      rw [h2 j hj]
      exact Heap.get_put_other _ _ _ _ _ (fun e => hj e.symm)
    · intro k
      simp only [copyFields]
      rw [h3 k, hsrc, Heap.get_put_same _ _ _ _ hlt, Obj.get_put]
      by_cases hk : k = attr
      · subst hk
        simp
      · by_cases hr : k ∈ rest
        · simp [hr]
        · simp [hr, hk]

theorem Heap.get_append_new (h : Heap) :
    (h ++ [([] : Obj)]).get h.length = [] ∧
    ∀ j, j < h.length → (h ++ [([] : Obj)]).get j = h.get j := by
  unfold Heap.get
  constructor
  · simp [List.getD_eq_getElem?_getD]
  · intro j hj
    simp [List.getD_eq_getElem?_getD, List.getElem?_append_left hj]

theorem setFunc_lookup (fs : List (String × Nat)) (k : String) (v : Nat) :
    (setFunc fs k v).lookup k = some v := by
  induction fs with
  | nil => simp [setFunc, List.lookup]
  | cons kv rest ih =>
    obtain ⟨k0, v0⟩ := kv
    by_cases h0 : k0 = k
    · subst h0
      simp [setFunc, List.lookup]
    · have h2 : (k == k0) = false := by simpa using fun e : k = k0 => h0 e.symm
      simp only [setFunc, h0, if_false, List.lookup, h2]
      exact ih

/-- C15.  One round of `addFunction` on an existing descriptor object: the counter goes up by
one, the key `f<funcsCount>` refers to a new object, every property read of that object gives
what the same read of the descriptor gives, the descriptor and every other object are as
before, and an assignment to a property of the descriptor, or of any object that existed before
the call, leaves the registered object as it is.  After the set-up of the module, in which `f1`
is registered on the user List, gets `attr = "title"` and is registered on the album List, the
only decorator of the user List is `f1: createItemTitle` with `attr` `"name"` and that of the
album List `f1: createItemTitle` with `attr` `"title"`, as in `paramsUser` and `paramsAlbum`,
whose items get the title from the field `name` and from the field `title`. -/
theorem addFunction_copies_descriptor (h : Heap) (self : ListRef) (arg : Nat)
    (harg : arg < h.length) :
    (addFunctionRef1 (h, self) arg).2.funcsCount = self.funcsCount + 1 ∧
    (addFunctionRef1 (h, self) arg).2.funcs.lookup ("f" ++ Nat.repr (self.funcsCount + 1)) =
      some h.length ∧
    (addFunctionRef1 (h, self) arg).1.length = h.length + 1 ∧
    (∀ k, ((addFunctionRef1 (h, self) arg).1.get h.length).get k = (h.get arg).get k) ∧
    (∀ j, j < h.length → (addFunctionRef1 (h, self) arg).1.get j = h.get j) ∧
    (∀ j k v, j < h.length →
      ((addFunctionRef1 (h, self) arg).1.put j k v).get h.length =
        (addFunctionRef1 (h, self) arg).1.get h.length) ∧
    (moduleSetup.user.decorators moduleSetup.heap =
        [("f1", Field.fn "createItemTitle", Field.str "name")] ∧
      moduleSetup.album.decorators moduleSetup.heap =
        [("f1", Field.fn "createItemTitle", Field.str "title")] ∧
      moduleSetup.photo.decorators moduleSetup.heap =
        [("f1", Field.fn "addThumbnailPhoto", Field.str "thumbnailUrl"),
         ("f2", Field.fn "createSimpleTitle", Field.str "title")] ∧
      (moduleSetup.heap.get 0).get "attr" = Field.str "title") ∧
    (paramsUser.funcs.map (fun kf => (kf.1, kf.2.attr)) = [("f1", some "name")] ∧
      paramsAlbum.funcs.map (fun kf => (kf.1, kf.2.attr)) = [("f1", some "title")] ∧
      paramsUser.funcs.map (fun kf => kf.2.func) = [createItemTitle] ∧
      paramsAlbum.funcs.map (fun kf => kf.2.func) = [createItemTitle]) ∧
    (∀ r : Record,
      (createItem paramsUser false r).st.children = [Node.itemTitle (Arg.val (r.get "name")) 1] ∧
      (createItem paramsAlbum false r).st.children =
        [Node.itemTitle (Arg.val (r.get "title")) 1]) := by
  obtain ⟨hnew, hold⟩ := Heap.get_append_new h
  have hne : h.length ≠ arg := by omega
  have hlt : h.length < (h ++ [([] : Obj)]).length := by simp
  obtain ⟨c1, c2, c3⟩ :=
    copyFields_spec h.length arg hne ((h ++ [([] : Obj)]).get arg).keys (h ++ [([] : Obj)]) hlt
  have hfst : (addFunctionRef1 (h, self) arg).1 =
      copyFields h.length arg ((h ++ [([] : Obj)]).get arg).keys (h ++ [([] : Obj)]) := rfl
  refine ⟨rfl, setFunc_lookup _ _ _, ?_, ?_, ?_, ?_, by decide, ⟨by decide, by decide, rfl, rfl⟩, ?_⟩
  · rw [hfst, c1]
    simp
  · intro k
    rw [hfst, c3 k, hold arg harg, hnew]
    by_cases hk : k ∈ (h.get arg).keys
    · simp [hk]
    · simp only [hk, if_false]
      rw [Obj.get_not_key _ _ hk]
      rfl
  · intro j hj
    rw [hfst, c2 j (by omega), hold j hj]
  · intro j k v hj
    exact Heap.get_put_other _ _ _ _ _ (by omega)
  · intro r
    constructor <;> rfl

/-- C15 at the descriptor `f1` of the script and the new user List: the registered object has
the `attr` of `f1`, and setting `f1.attr` afterwards does not change it. -/
theorem addFunction_copies_descriptor_witness :
    ((addFunctionRef1 (descriptors, { funcs := [], funcsCount := 0 }) 0).1.get 3).get "attr" =
      Field.str "name" ∧
    (((addFunctionRef1 (descriptors, { funcs := [], funcsCount := 0 }) 0).1.put 0 "attr"
      (Field.str "title")).get 3).get "attr" = Field.str "name" :=
  ⟨((addFunction_copies_descriptor descriptors { funcs := [], funcsCount := 0 } 0
      (by decide)).2.2.2.1 "attr").trans (by decide),
   by decide⟩

/-! ## Repeated failures from a regular state (C11) -/

theorem getDataJSONLoadStart_regular (c : Container) (h : c.indicatorRegular) :
    (getDataJSONLoadStart c).indicatorRegular := by
  obtain ⟨b, hb, hnested, hpre, hmsgs⟩ := h
  unfold getDataJSONLoadStart
  rw [modifyFirstBlock_anyBlock_own c b _ hb]
  refine ⟨_, rfl, hnested, ?_, ?_⟩
  · simp only
    split_ifs <;> omega
  · rcases hmsgs with ⟨hmark, hnil⟩ | ⟨hmark, m, hm, herr⟩
    · exact Or.inl ⟨hmark, by simp only [hnil]⟩
    · exact Or.inr ⟨hmark, { m with classes := classAdd m.classes "_hidden" }, by simp only [hm],
        by simpa [MsgBlock.isError] using herr⟩

theorem errorLoad_regular (c : Container) (h : c.indicatorRegular) :
    (errorLoad c).thrown = none ∧ (errorLoad c).st.indicatorRegular ∧
      (errorLoad c).st.showsOneError := by
  obtain ⟨b, hb, hnested, hpre, hmsgs⟩ := h
  obtain ⟨id, classes, eb, lists⟩ := c
  obtain ⟨bcls, pre, msgs⟩ := b
  simp only at hb hnested hpre hmsgs
  subst hb
  have hpre2 : pre = 0 ∨ pre = 1 := by omega
  have hmark2 := hmsgs
  have hnested2 : ¬ ∃ x ∈ lists, UList.hasBlock ExtraBlock.hasPreload x = true := by
    simpa using hnested
  rcases hmsgs with ⟨hmark, hnil⟩ | ⟨hmark, m, hm, herr⟩
  · subst hnil
    have hmark3 : "_added-msg" ∉ classes := by simpa using hmark
    have hres : errorLoad ⟨id, classes, some ⟨bcls, pre, []⟩, lists⟩ =
        { st := ⟨id, classAdd classes "_added-msg", some ⟨bcls, 0, [errorMsg]⟩, lists⟩ } := by
      rcases hpre2 with hp | hp <;> subst hp <;>
        simp [errorLoad, errorLoadPreload, errorLoadMsg, Container.hasBlock, Container.firstBlock,
          Container.modifyFirstBlock, anyBlock, ExtraBlock.hasPreload, ExtraBlock.hasMsg,
          hnested2, hmark3]
    rw [hres]
    exact ⟨rfl, ⟨_, rfl, hnested, Nat.zero_le 1, Or.inr ⟨classAdd_self _ _, errorMsg, rfl, by decide⟩⟩,
      ⟨_, _, rfl, rfl, rfl, by decide, by decide⟩⟩
  · subst hm
    have hmark3 : "_added-msg" ∈ classes := by simpa using hmark
    have hres : errorLoad ⟨id, classes, some ⟨bcls, pre, [m]⟩, lists⟩ =
        { st := ⟨id, classes,
            some ⟨bcls, 0, [{ m with classes := classRemove m.classes "_hidden" }]⟩, lists⟩ } := by
      rcases hpre2 with hp | hp <;> subst hp <;>
        simp [errorLoad, errorLoadPreload, errorLoadMsg, Container.hasBlock, Container.firstBlock,
          Container.modifyFirstBlock, anyBlock, ExtraBlock.hasPreload, ExtraBlock.hasMsg,
          hnested2, hmark3]
    rw [hres]
    have herr2 : MsgBlock.isError { m with classes := classRemove m.classes "_hidden" } = true := by
      simpa [MsgBlock.isError] using herr
    have hshown : (classRemove m.classes "_hidden").contains "_hidden" = false := by
      rw [Bool.eq_false_iff]
      simp [classRemove]
    exact ⟨rfl, ⟨_, rfl, hnested, Nat.zero_le 1, Or.inr ⟨hmark, _, rfl, herr2⟩⟩,
      ⟨_, _, rfl, rfl, rfl, herr2, hshown⟩⟩

/-- From a regular state of the load indicator, every sequence of load starts and failures
that ends with a failure completes and leaves exactly one message block, a visible error
message block, and no `.preload`. -/
theorem runLoadEvents_regular (evs : List LoadEvent) :
    ∀ c : Container, c.indicatorRegular →
      (runLoadEvents (evs ++ [.errorLoad]) c).thrown = none ∧
        (runLoadEvents (evs ++ [.errorLoad]) c).st.showsOneError := by
  induction evs with
  | nil =>
    intro c h
    obtain ⟨h1, _, h3⟩ := errorLoad_regular c h
    simp only [List.nil_append, runLoadEvents, h1]
    exact ⟨trivial, h3⟩
  | cons ev rest ih =>
    intro c h
    cases ev with
    | loadStart =>
      simp only [List.cons_append, runLoadEvents]
      exact ih _ (getDataJSONLoadStart_regular c h)
    | errorLoad =>
      obtain ⟨h1, h2, _⟩ := errorLoad_regular c h
      simp only [List.cons_append, runLoadEvents, h1]
      exact ih _ h2

end Gallery
